import Mathlib

/-!  Verification of the DictaChat datagov semantic resource-matching engine.

This file is a shallow embedding of the core of
src/datagov/query_builder.py and of the aggregate / fallback logic of
src/datagov/server.py, together with theorems settling the specification
claims about that code.

Modelling conventions:
* Python strings are Lean String values; all character-level work happens
  on the explicit character list (String.toList), so every definition
  evaluates inside the kernel.  Python str.lower / str.upper act on the
  corpus alphabet (ASCII plus Hebrew); Hebrew letters are case-less, so
  the ASCII case map below coincides with Python on every input the
  engine sees.
* Python float scores are modelled as exact rationals.
* Python dict / set values are modelled as association lists and
  duplicate-free lists; claims about them are membership claims, which
  the list model preserves.  Where Python set iteration order is
  unspecified, the model fixes insertion order; no claim below depends
  on an unspecified order.
* Module-level mutable state (the raw expansion table, the schema index,
  the keyword index and the field-availability index, all loaded from
  static JSON at startup) is passed explicitly in an Env record, as the
  spec itself recommends; the concrete expansion table from the source
  is SUBJECT_EXPANSIONS below.  The optional enterprise_expansions
  module is absent, so the import in the source falls back to an empty
  dictionary and SUBJECT_EXPANSIONS is the base table.
-/

set_option maxRecDepth 100000

unseal Rat.add Rat.mul Rat.inv Rat.sub Rat.ofScientific

/-! ## String primitives (Python semantics on explicit character lists) -/

/-- Python str.lower on a character: ASCII letters are mapped, everything
else (in particular Hebrew) is unchanged. -/
def pyLowerChar (c : Char) : Char :=
  if 65 ≤ c.toNat ∧ c.toNat ≤ 90 then Char.ofNat (c.toNat + 32) else c

def pyLowerL (s : String) : List Char := s.toList.map pyLowerChar

def pyLower (s : String) : String := (pyLowerL s).asString

/-- Python str.upper on a character (ASCII range). -/
def pyUpperChar (c : Char) : Char :=
  if 97 ≤ c.toNat ∧ c.toNat ≤ 122 then Char.ofNat (c.toNat - 32) else c

def pyUpper (s : String) : String := (s.toList.map pyUpperChar).asString

/-- Boolean list-prefix test. -/
def isPrefixB : List Char → List Char → Bool
  | [], _ => true
  | _ :: _, [] => false
  | a :: as, b :: bs => a = b && isPrefixB as bs

/-- Boolean substring test: Python needle in hay on character lists. -/
def isSubB (needle : List Char) : List Char → Bool
  | [] => isPrefixB needle []
  | c :: t => isPrefixB needle (c :: t) || isSubB needle t

/-- Python substring test needle in hay on strings. -/
def pyIn (needle hay : String) : Bool := isSubB needle.toList hay.toList

def isSuffixB (suf l : List Char) : Bool := isPrefixB suf.reverse l.reverse

/-- Split a character list at every character satisfying sep, keeping empty
chunks, as Python re.split does.  The accumulator holds the current chunk
reversed. -/
def splitAuxP (sep : Char → Bool) : List Char → List Char → List (List Char)
  | [], acc => [acc.reverse]
  | c :: cs, acc =>
    if sep c then acc.reverse :: splitAuxP sep cs [] else splitAuxP sep cs (c :: acc)

/-- Whitespace characters recognised by Python (ASCII range). -/
def isWSChar (c : Char) : Bool :=
  c = ' ' || c = '\t' || c = '\n' || c = '\x0d' || c = '\x0b' || c = '\x0c'

/-- The tokenizer separator class from the source regex (whitespace plus a
fixed punctuation set). -/
def isSepChar (c : Char) : Bool :=
  isWSChar c || c = ',' || c = '.' || c = '-' || c = ':' || c = ';' || c = '!' ||
  c = '?' || c = '(' || c = ')' || c = '[' || c = ']' || c = '\x7b' || c = '\x7d' ||
  c = '"' || c = '\x27' || c = '/'

/-- Python " ".join. -/
def joinSp : List String → String
  | [] => ""
  | [t] => t
  | t :: ts => t ++ " " ++ joinSp ts

/-- Python str.strip of surrounding whitespace. -/
def pyStrip (s : String) : String :=
  (((s.toList.dropWhile isWSChar).reverse.dropWhile isWSChar).reverse).asString

/-- Python str.isdigit on the corpus alphabet. -/
def pyIsDigit (s : String) : Bool := !s.toList.isEmpty && s.toList.all Char.isDigit

/-- Python str.isascii. -/
def pyIsAscii (s : String) : Bool := s.toList.all (fun c => c.toNat ≤ 127)

def hasHebrewChar (c : Char) : Bool := 0x590 ≤ c.toNat && c.toNat ≤ 0x5FF

/-- Unicode-range check for Hebrew characters used throughout the source. -/
def hasHebrew (s : String) : Bool := s.toList.any hasHebrewChar

/-- Insertion into a Python set modelled as an ordered duplicate-free list. -/
def setAdd (l : List String) (x : String) : List String := if x ∈ l then l else l ++ [x]

/-- Union of a Python set with an iterable, in iteration order. -/
def setUnion (l : List String) (xs : List String) : List String := xs.foldl setAdd l

/-- Python dict.get with default empty list, on an association list. -/
def assocGet (m : List (String × List String)) (k : String) : List String :=
  match m.find? (fun e => e.1 = k) with
  | some e => e.2
  | none => []

/-- Python dict.get with a Boolean default. -/
def boolGetD (m : List (String × Bool)) (k : String) (d : Bool) : Bool :=
  match m.find? (fun e => e.1 = k) with
  | some e => e.2
  | none => d

/-- Python truthiness of an optional string (None and "" are falsy). -/
def truthyOptStr : Option String → Bool
  | none => false
  | some s => s ≠ ""

/-- Python a or b for optional strings with a string fallback. -/
def pyOr (a : Option String) (b : String) : String :=
  match a with
  | some s => if s = "" then b else s
  | none => b

/-- Python min on two floats (first argument wins ties). -/
def pyMin (a b : ℚ) : ℚ := if a ≤ b then a else b

/-- Round half to even on rationals, the tie rule of Python round. -/
def rheInt (q : ℚ) : ℤ :=
  let f := ⌊q⌋
  if q - f < 1/2 then f
  else if 1/2 < q - f then f + 1
  else if f % 2 = 0 then f else f + 1

/-- Python round(q, n) modelled exactly on rationals. -/
def pyRound (q : ℚ) (n : ℕ) : ℚ :=
  let p : ℚ := ((10 : ℕ) ^ n : ℕ)
  (rheInt (q * p) : ℚ) / p

/-! ## Static tables from query_builder.py -/

/-- The runtime value of HEBREW_PREFIXES: the module first binds a list and
later rebinds the same global to this set (two-character members). -/
def hebPrefixes2 : List String := ["וב", "ול", "ומ", "וה", "וכ", "וש", "שב", "של", "שמ"]

/-- One-character members of the runtime HEBREW_PREFIXES set. -/
def hebPrefixes1 : List String := ["ב", "ל", "מ", "ה", "ו", "כ", "ש"]

def HEBREW_PLURAL_SUFFIXES : List String := ["ים", "ות"]

def STOP_WORDS : List String := [
  "של", "את", "על", "עם", "לא", "או", "גם", "כי", "מה", "זה", "הוא", "היא", "אני", "אנחנו", "ב", "ל", "מ", "ה", "ו", "כ", "ש", "the", "a", "an", "in", "on", "at", "to", "for", "of", "and", "or", "is", "are", "was", "were", "be", "been", "being", "have", "has", "had", "do", "does", "did", "will", "would", "could", "should", "may", "might", "must", "can", "this", "that", "these", "those", "i", "you", "he", "she", "it", "we", "they", "me", "him", "her", "us", "them", "my", "your", "his", "its", "our", "their", "what", "which", "who", "whom", "use", "using", "show", "display", "find", "search", "get", "list", "give", "me", "want", "provide", "each", "every", "all", "with", "from", "by"]

def HEBREW_STOPWORDS : List String := [
  "את", "של", "על", "עם", "אל", "מה", "איך", "למה", "מי", "היכן", "מתי", "האם", "יש", "אין", "כל", "גם", "או", "אם", "לא", "כי", "זה", "זו", "זאת", "הוא", "היא", "הם", "הן", "אני", "אנחנו", "אתה", "את", "שלי", "שלך", "שלו", "בו", "בה", "בהם", "בהן", "לו", "לה", "להם", "להן", "ממנו", "ממנה", "מידע", "נתונים", "רשימה", "רשימת", "פרטים", "פרטי", "כמות", "סטטיסטיקה"]

def ENGLISH_STOPWORDS : List String := [
  "the", "a", "an", "is", "are", "was", "were", "be", "been", "being", "have", "has", "had", "do", "does", "did", "will", "would", "could", "should", "what", "where", "when", "why", "how", "which", "who", "whom", "in", "on", "at", "to", "for", "of", "with", "by", "from", "about", "into", "through", "during", "before", "after", "above", "below", "all", "any", "both", "each", "few", "more", "most", "other", "some", "data", "information", "list", "details", "statistics", "numbers"]

def ISRAELI_LOCATIONS : List String := [
  "jerusalem", "ירושלים", "tel aviv", "תל אביב", "haifa", "חיפה",
  "beer sheva", "באר שבע", "beersheba", "netanya", "נתניה",
  "ashdod", "אשדוד", "rishon", "ראשון לציון", "petah tikva", "פתח תקווה",
  "holon", "חולון", "bnei brak", "בני ברק", "ramat gan", "רמת גן",
  "ashkelon", "אשקלון", "rehovot", "רחובות", "bat yam", "בת ים",
  "herzliya", "הרצליה", "kfar saba", "כפר סבא", "ra\x27anana", "רעננה",
  "modi\x27in", "מודיעין", "lod", "לוד", "ramla", "רמלה",
  "nazareth", "נצרת", "acre", "עכו", "akko", "eilat", "אילת",
  "tiberias", "טבריה", "safed", "צפת", "kiryat", "קריית",
  "dimona", "דימונה", "arad", "ערד", "nahariya", "נהריה",
  "north", "צפון", "south", "דרום", "center", "מרכז",
  "galilee", "גליל", "negev", "נגב", "golan", "גולן",
  "sharon", "שרון", "shfela", "שפלה", "coastal", "חוף",
  "tel aviv district", "מחוז תל אביב", "jerusalem district", "מחוז ירושלים",
  "northern district", "מחוז צפון", "southern district", "מחוז דרום",
  "central district", "מחוז מרכז", "haifa district", "מחוז חיפה"]

def _BASE_SUBJECT_EXPANSIONS : List (String × List String) := [
  ("court", ["בית משפט", "בתי משפט", "משפט", "שופט", "שפיטה", "תיקים"]),
  ("courts", ["בית משפט", "בתי משפט", "משפט", "שופט", "שפיטה", "תיקים"]),
  ("judge", ["שופט", "שופטים", "בית משפט"]),
  ("legal", ["משפטי", "חוקי", "משפט"]),
  ("law", ["חוק", "חוקים", "משפט", "חקיקה"]),
  ("hospital", ["בית חולים", "בתי חולים", "רפואי", "רפואה", "אשפוז"]),
  ("hospitals", ["בית חולים", "בתי חולים", "רפואי", "רפואה", "אשפוז"]),
  ("clinic", ["מרפאה", "מרפאות", "קופת חולים"]),
  ("health", ["בריאות", "רפואי", "רפואה"]),
  ("medical", ["רפואי", "רפואה", "בריאות"]),
  ("trauma", ["טראומה", "מרכז טראומה", "פציעות"]),
  ("doctor", ["רופא", "רופאים", "רפואה"]),
  ("pharmacy", ["בית מרקחת", "תרופות", "רוקחות"]),
  ("school", ["בית ספר", "בתי ספר", "חינוך", "לימודים", "מוסד חינוך", "מוסדות חינוך"]),
  ("schools", ["בית ספר", "בתי ספר", "חינוך", "לימודים", "מוסד חינוך", "מוסדות חינוך"]),
  ("high school", ["תיכון", "תיכונים", "בית ספר תיכון", "בתי ספר תיכוניים", "חטיבה עליונה", "מוסדות חינוך"]),
  ("highschool", ["תיכון", "תיכונים", "בית ספר תיכון", "בתי ספר תיכוניים", "חטיבה עליונה"]),
  ("תיכון", ["תיכון", "תיכונים", "high school", "חטיבה עליונה", "מוסדות חינוך"]),
  ("תיכוניים", ["תיכון", "תיכונים", "high school", "חטיבה עליונה", "מוסדות חינוך"]),
  ("elementary", ["יסודי", "בית ספר יסודי", "חטיבת ביניים", "מוסדות חינוך"]),
  ("university", ["אוניברסיטה", "אוניברסיטאות", "השכלה גבוהה"]),
  ("college", ["מכללה", "מכללות", "השכלה"]),
  ("education", ["חינוך", "לימודים", "הוראה", "מוסדות חינוך", "בתי ספר"]),
  ("student", ["תלמיד", "תלמידים", "סטודנט"]),
  ("kindergarten", ["גן ילדים", "גני ילדים", "גנים"]),
  ("ministry", ["משרד", "משרדים", "ממשלתי"]),
  ("government", ["ממשלה", "ממשלתי", "ציבורי"]),
  ("municipality", ["עירייה", "עיריות", "רשות מקומית"]),
  ("office", ["משרד", "לשכה", "מוסד"]),
  ("police", ["משטרה", "משטרתי", "שוטר"]),
  ("fire", ["כבאות", "כבאי", "מכבי אש"]),
  ("bus", ["אוטובוס", "תחבורה ציבורית", "קווים"]),
  ("train", ["רכבת", "תחנת רכבת", "רכבות"]),
  ("airport", ["שדה תעופה", "נמל תעופה", "טיסות"]),
  ("road", ["כביש", "כבישים", "דרך"]),
  ("traffic", ["תנועה", "תחבורה", "פקקים"]),
  ("business", ["עסק", "עסקים", "חברה", "חברות"]),
  ("company", ["חברה", "חברות", "עסק"]),
  ("license", ["רישיון", "רישוי", "היתר"]),
  ("permit", ["היתר", "רישיון", "אישור"]),
  ("tax", ["מס", "מיסים", "מסוי"]),
  ("budget", ["תקציב", "תקציבי", "כספים"]),
  ("water", ["מים", "מקורות מים", "ביוב"]),
  ("air", ["אוויר", "זיהום אוויר", "איכות אוויר"]),
  ("environment", ["סביבה", "איכות הסביבה", "אקולוגי"]),
  ("weather", ["מזג אוויר", "גשם", "טמפרטורה"]),
  ("park", ["פארק", "גן ציבורי", "שטח פתוח"]),
  ("welfare", ["רווחה", "סעד", "שירותי רווחה"]),
  ("elderly", ["קשישים", "זקנים", "גיל הזהב"]),
  ("disability", ["נכות", "נכים", "מוגבלות"]),
  ("housing", ["דיור", "שיכון", "מגורים"]),
  ("population", ["אוכלוסייה", "דמוגרפיה", "תושבים"]),
  ("census", ["מפקד", "מפקד אוכלוסין", "סטטיסטיקה"]),
  ("statistics", ["סטטיסטיקה", "נתונים", "מדדים"])]

/-- The merged table: the optional enterprise_expansions module is absent,
so the source's import falls back to an empty dictionary and the merge
leaves the base table unchanged. -/
def SUBJECT_EXPANSIONS : List (String × List String) := _BASE_SUBJECT_EXPANSIONS

def FIELD_INTENT_MAPPING : List (String × List String) := [
  ("address", ["כתובת", "address", "רחוב", "street", "מיקום", "location", "כתובת_מלאה"]),
  ("addresses", ["כתובת", "address", "רחוב", "street", "מיקום", "location"]),
  ("כתובת", ["כתובת", "address", "רחוב", "street", "מיקום", "location"]),
  ("phone", ["טלפון", "phone", "tel", "telephone", "פקס", "fax", "נייד", "mobile"]),
  ("phones", ["טלפון", "phone", "tel", "telephone", "פקס", "fax"]),
  ("טלפון", ["טלפון", "phone", "tel", "telephone"]),
  ("contact", ["איש_קשר", "contact", "אימייל", "email", "טלפון", "phone"]),
  ("email", ["אימייל", "email", "דואר", "mail"]),
  ("name", ["שם", "name", "שם_מלא", "full_name", "כותרת", "title"]),
  ("שם", ["שם", "name", "שם_מלא", "full_name"]),
  ("city", ["עיר", "city", "יישוב", "town", "רשות", "municipality"]),
  ("עיר", ["עיר", "city", "יישוב", "town"]),
  ("district", ["מחוז", "district", "אזור", "region"]),
  ("מחוז", ["מחוז", "district", "אזור", "region"]),
  ("type", ["סוג", "type", "קטגוריה", "category", "תחום", "domain"]),
  ("סוג", ["סוג", "type", "קטגוריה", "category"]),
  ("status", ["סטטוס", "status", "מצב", "state"]),
  ("link", ["קישור", "link", "url", "אתר", "website"]),
  ("url", ["קישור", "link", "url", "אתר", "website"]),
  ("date", ["תאריך", "date", "יום", "day", "שנה", "year"]),
  ("תאריך", ["תאריך", "date", "יום", "day"]),
  ("hours", ["שעות", "hours", "שעות_פתיחה", "opening_hours", "זמנים"]),
  ("שעות", ["שעות", "hours", "שעות_פתיחה", "opening_hours"])]

/-! ## Data model (spec section 3, source dict shapes made explicit) -/

structure Resource where
  id : Option String
  title : Option String
  name : Option String
  format : Option String
deriving DecidableEq

structure Dataset where
  id : Option String
  title : Option String
  name : Option String
  tags : List String
  organization : Option String
  resources : List Resource
deriving DecidableEq

structure Corpus where
  datasets : List Dataset
deriving DecidableEq

/-- The per-resource record of the enterprise schema index (categories,
keywords and the field-availability booleans used by the claims). -/
structure SchemaInfo where
  categories : List String
  keywords : List String
  field_availability : List (String × Bool)
deriving DecidableEq

/-- The static inputs the source loads once at startup: the raw expansion
table, the enterprise schema index keyed by resource id, the keyword index
and the lightweight field-availability index.  An empty list models a
missing or empty JSON file (both are falsy in the source). -/
structure Env where
  table : List (String × List String)
  schemaIndex : List (String × SchemaInfo)
  kwTable : List (String × List String)
  fieldIndex : List (String × List (String × Bool))
deriving DecidableEq

structure Decomposed where
  subject_tokens : List String
  location_tokens : List String
  location_tokens_original : List String
  expanded_subjects : List String
  all_tokens : List String
deriving DecidableEq

structure Candidate where
  dataset_id : Option String
  dataset_title : String
  dataset_name : String
  resource_id : Option String
  resource_title : String
  format : String
  organization : String
  tags : List String
  score : ℚ
  subject_score : ℚ
  location_score : ℚ
deriving DecidableEq

/-- Output of suggest_for_query; the ready-to-use URL template strings of
the source are derived data not touched by any claim and are omitted. -/
structure SuggestResult where
  decomposition : Decomposed
  candidates : List Candidate
  total_matched : ℕ
deriving DecidableEq

/-! ## Synonym index (query_builder.py lines 630-674) -/

/-- Build the bidirectional index: every term of every group maps to the
whole group, groups being merged by union when a term recurs.  The Python
dict of sets is modelled as a total function into lists; list append models
set union (the claims about the index are membership claims). -/
def _build_bidirectional_index (table : List (String × List String)) : String → List String :=
  table.foldl (fun index kv =>
    (kv.1 :: kv.2).foldl
      (fun idx term => fun t => if t = term then idx t ++ (kv.1 :: kv.2) else idx t) index)
    (fun _ => [])

/-- Bidirectional synonym lookup: case-folded key first, then the raw key,
else the singleton of the term itself. -/
def get_all_synonyms (index : String → List String) (term : String) : List String :=
  let synonyms := index (pyLower term)
  if synonyms.isEmpty then
    let synonyms2 := index term
    if synonyms2.isEmpty then [term] else synonyms2
  else synonyms

/-- The index the source builds once at module load from SUBJECT_EXPANSIONS. -/
def _BIDIRECTIONAL_EXPANSIONS : String → List String :=
  _build_bidirectional_index SUBJECT_EXPANSIONS

/-! ## Morphological normalizer (query_builder.py lines 257-297, 1034-1072) -/

/-- Hebrew morphological variants of a word: the word, its lower case,
a prefix-stripped form (longest prefixes first), plural-suffix-stripped
forms of both, and a feminine-singular variant for one suffix class.
The Python set is modelled as an insertion-ordered duplicate-free list. -/
def get_hebrew_variants (word : String) : List String :=
  if word = "" then []
  else if word.toList.length < 2 then [word]
  else
    let v0 := setAdd (setAdd [] word) (pyLower word)
    if !hasHebrew word then v0
    else
      let pre := (hebPrefixes2 ++ hebPrefixes1).find? (fun p =>
        isPrefixB p.toList word.toList && p.toList.length + 1 < word.toList.length)
      let stripped := match pre with
        | some p => (word.toList.drop p.toList.length).asString
        | none => word
      let v1 := match pre with
        | some _ => setAdd v0 stripped
        | none => v0
      [word, stripped].foldl (fun acc base =>
        HEBREW_PLURAL_SUFFIXES.foldl (fun acc2 suf =>
          if isSuffixB suf.toList base.toList && suf.toList.length + 1 < base.toList.length then
            let singular := (base.toList.take (base.toList.length - suf.toList.length)).asString
            let acc3 := setAdd acc2 singular
            if suf = "ים" then setAdd acc3 (singular ++ "ה") else acc3
          else acc2) acc) v1

/-- The location test of the non-forced prefix strip: the stripped form
equals a gazetteer entry or is a substring of one. -/
def locMatchSub (sl : String) : Bool :=
  ISRAELI_LOCATIONS.any (fun loc => sl = pyLower loc || pyIn sl (pyLower loc))

/-- One prefix-length attempt of the location prefix strip. -/
def stripAttempt (word : String) (plen : ℕ) (force : Bool) : Option String :=
  if plen + 2 < word.toList.length then
    let p := (word.toList.take plen).asString
    if (if plen = 2 then hebPrefixes2 else hebPrefixes1).contains p then
      let stripped := (word.toList.drop plen).asString
      if 3 ≤ stripped.toList.length then
        if force then some stripped
        else if locMatchSub (pyLower stripped) then some stripped
        else none
      else none
    else none
  else none

/-- Strip a Hebrew prefix letter pair or letter for location matching;
without force, only strip when the remainder names a known location. -/
def _strip_hebrew_prefix (word : String) (force : Bool) : String :=
  if word = "" ∨ word.toList.length < 4 then word
  else if !hasHebrew word then word
  else match stripAttempt word 2 force with
    | some s => s
    | none =>
      match stripAttempt word 1 force with
      | some s => s
      | none => word

/-! ## Tokenizer (query_builder.py lines 1075-1107) -/

/-- The per-token filter of the tokenizer: drop empty, one-character and
stop-word tokens; with strip_prefixes, replace a token by its
location-stripped form when that form is a known location. -/
def tokenKeep (strip_prefixes : Bool) (t : String) : Option String :=
  if t = "" ∨ t.toList.length ≤ 1 ∨ STOP_WORDS.contains t then none
  else if strip_prefixes then
    let stripped := _strip_hebrew_prefix t false
    if stripped ≠ "" ∧ 1 < stripped.toList.length then some stripped
    else if t ≠ "" ∧ 1 < t.toList.length then some t
    else none
  else if 1 < t.toList.length then some t else none

/-- Split lower-cased text on whitespace and punctuation and keep the
surviving tokens. -/
def _tokenize_hebrew (text : String) (strip_prefixes : Bool) : List String :=
  if text = "" then []
  else
    ((splitAuxP isSepChar (pyLowerL text) []).map List.asString).filterMap
      (tokenKeep strip_prefixes)

/-! ## Query decomposer (query_builder.py lines 1192-1282) -/

/-- Gazetteer membership test of the decomposer: exact, token-in-location
or location-in-token. -/
def isKnownLocation (tl : String) : Bool :=
  ISRAELI_LOCATIONS.any (fun loc =>
    tl = pyLower loc || pyIn tl (pyLower loc) || pyIn (pyLower loc) tl)

/-- Decompose a query into subject and location tokens, expanding subject
tokens through morphological variants and the bidirectional index. -/
def _decompose_query (env : Env) (query : String) : Decomposed :=
  let tokens := _tokenize_hebrew query false
  let query_lower := pyLower query
  let index := _build_bidirectional_index env.table
  let st := tokens.foldl
    (fun (st : List String × List String × List String × List String) token =>
      let (subj, locs, locsOrig, exps) := st
      if isKnownLocation (pyLower token) then
        (subj, locs ++ [token], locsOrig ++ [token], exps)
      else
        let stripped := _strip_hebrew_prefix token true
        if stripped ≠ token ∧ isKnownLocation (pyLower stripped) then
          (subj, locs ++ [stripped], locsOrig ++ [token], exps)
        else
          let variants := get_hebrew_variants token
          let found0 := variants.foldl (fun acc variant =>
            let synonyms := get_all_synonyms index variant
            if 1 < synonyms.length then setUnion acc synonyms else acc) []
          let found := setUnion found0 variants
          (subj ++ [token], locs, locsOrig, if found.isEmpty then exps else exps ++ found))
    ([], [], [], [])
  let st2 := ISRAELI_LOCATIONS.foldl
    (fun (p : List String × List String) loc =>
      if pyIn (pyLower loc) query_lower then
        if loc ∉ p.1 ∧ pyLower loc ∉ p.1.map pyLower then (p.1 ++ [loc], p.2 ++ [loc]) else p
      else p)
    (st.2.1, st.2.2.1)
  { subject_tokens := st.1,
    location_tokens := st2.1,
    location_tokens_original := st2.2,
    expanded_subjects := st.2.2.2.dedup,
    all_tokens := tokens }

/-! ## Keyword index (query_builder.py lines 300-347) -/

/-- Accumulate a score for a resource id in the match dictionary. -/
def bump (m : List (String × ℚ)) (k : String) (x : ℚ) : List (String × ℚ) :=
  if m.any (fun e => e.1 = k) then m.map (fun e => if e.1 = k then (e.1, e.2 + x) else e)
  else m ++ [(k, x)]

def assocGetQ (m : List (String × ℚ)) (k : String) : ℚ :=
  match m.find? (fun e => e.1 = k) with
  | some e => e.2
  | none => 0

/-- Score resources by keyword-index hits of the query tokens, their Hebrew
variants (1.0 exact, 0.8 variant) and their synonym expansions (0.5). -/
def find_matching_resources (env : Env) (query_tokens : List String) : List (String × ℚ) :=
  if env.kwTable.isEmpty then []
  else
    let index := _build_bidirectional_index env.table
    query_tokens.foldl (fun rm token =>
      let token_lower := pyLower token
      let variants := get_hebrew_variants token
      let p1 := variants.foldl
        (fun (p : List (String × ℚ) × List String) variant =>
          let vl := pyLower variant
          if p.2.contains vl then p
          else
            ((assocGet env.kwTable vl).foldl
              (fun m rid => bump m rid (if vl = token_lower then 1 else 0.8)) p.1,
             p.2 ++ [vl]))
        (rm, [])
      let p2 := variants.foldl
        (fun (p : List (String × ℚ) × List String) variant =>
          (get_all_synonyms index variant).foldl
            (fun (q : List (String × ℚ) × List String) syn =>
              let sl := pyLower syn
              if q.2.contains sl then q
              else ((assocGet env.kwTable sl).foldl (fun m rid => bump m rid 0.5) q.1,
                    q.2 ++ [sl]))
            p)
        p1
      p2.1) []

/-! ## Scoring (query_builder.py lines 1426-1489) -/

/-- Weighted overlap of subject tokens and expansions against a text blob:
exact token 1, substring 0.7 per subject token (weight 1); whole-expansion
substring 0.8 else 0.4 for a long-enough constituent word (weight 0.5);
clamped by min 1. -/
def _calculate_subject_match (subject_tokens expanded_subjects : List String)
    (text : String) : ℚ :=
  if text = "" then 0
  else if subject_tokens.isEmpty ∧ expanded_subjects.isEmpty then 0
  else
    let text_lower := pyLowerL text
    let text_tokens := _tokenize_hebrew text false
    let stSum : ℚ := (subject_tokens.map (fun st =>
      if st ∈ text_tokens then (1 : ℚ)
      else if isSubB st.toList text_lower then 0.7 else 0)).sum
    let expSum : ℚ := (expanded_subjects.map (fun exp =>
      let exp_lower := pyLowerL exp
      if isSubB exp_lower text_lower then (0.8 : ℚ)
      else if ((splitAuxP isWSChar exp_lower []).filter (fun w => !w.isEmpty)).any
          (fun w => 2 < w.length && isSubB w text_lower) then 0.4
      else 0)).sum
    let matchSum := stSum + expSum
    let total_checks : ℚ := (subject_tokens.length : ℚ) + (expanded_subjects.length : ℚ) * 0.5
    if total_checks = 0 then 0 else pyMin 1 (matchSum / total_checks)

/-- Fraction of location tokens appearing as substrings of the text. -/
def _calculate_location_match (location_tokens : List String) (text : String) : ℚ :=
  if location_tokens.isEmpty ∨ text = "" then 0
  else
    let text_lower := pyLowerL text
    let matchSum : ℚ :=
      (location_tokens.map (fun lt => if isSubB lt.toList text_lower then (1 : ℚ) else 0)).sum
    pyMin 1 (matchSum / (location_tokens.length : ℚ))

/-! ## Schema lookups and field availability (query_builder.py lines 350-462) -/

def get_resource_schema (env : Env) (resource_id : String) : Option SchemaInfo :=
  (env.schemaIndex.find? (fun e => e.1 = resource_id)).map (fun e => e.2)

/-- The intent-to-availability-key dictionary of check_field_availability. -/
def intent_mapping : List (String × String) := [
  ("phone", "has_phone"), ("phones", "has_phone"), ("address", "has_address"),
  ("addresses", "has_address"), ("location", "has_location"), ("city", "has_location"),
  ("email", "has_email"), ("date", "has_date"), ("contact", "has_phone")]

/-- Quick availability check: unknown intents count as available; the
lightweight field index is consulted first, then the full schema, and a
missing record or key defaults to available. -/
def check_field_availability (env : Env) (resource_id : String) (intent : String) : Bool :=
  match (intent_mapping.find? (fun e => e.1 = pyLower intent)).map (fun e => e.2) with
  | none => true
  | some key =>
    if !env.fieldIndex.isEmpty ∧ env.fieldIndex.any (fun e => e.1 = resource_id) then
      match env.fieldIndex.find? (fun e => e.1 = resource_id) with
      | some e => boolGetD e.2 key true
      | none => true
    else
      match get_resource_schema env resource_id with
      | none => true
      | some schema => boolGetD schema.field_availability key true

/-- Map the caller's raw field intents onto availability categories. -/
def relevantIntents (field_intents : List String) : List String :=
  field_intents.filterMap (fun intent =>
    let il := pyLower intent
    if ["phone", "phones", "telephone", "טלפון", "contact"].contains il then some "phone"
    else if ["address", "addresses", "כתובת", "location", "מיקום"].contains il then some "address"
    else if ["email", "אימייל", "mail"].contains il then some "email"
    else if ["date", "תאריך", "time"].contains il then some "date"
    else if ["city", "עיר", "district", "מחוז"].contains il then some "location"
    else none)

/-- A candidate passes when it has a truthy resource id and every relevant
intent is available for it. -/
def candidatePasses (env : Env) (relevant : List String) (c : Candidate) : Bool :=
  match c.resource_id with
  | none => false
  | some rid =>
    if rid = "" then false else relevant.all (fun i => check_field_availability env rid i)

/-- Filter candidates by field availability, returning the original list
when no intent maps or when filtering would empty the list. -/
def filter_by_field_availability (env : Env) (candidates : List Candidate)
    (field_intents : List String) : List Candidate :=
  if field_intents.isEmpty then candidates
  else
    let relevant := relevantIntents field_intents
    if relevant.isEmpty then candidates
    else
      let filtered := candidates.filter (candidatePasses env relevant)
      if filtered.isEmpty then candidates else filtered

/-! ## Field-intent matcher (query_builder.py lines 1135-1189) -/

def excluded_fields : List String := [
  "x", "y", "lat", "lon", "lng", "latitude", "longitude", "_id", "id",
  "itm_x", "itm_y", "utm_x", "utm_y", "e_ord", "n_ord"]

/-- The dict comprehension mapping lower-cased field names back to fields
keeps the last field with a given lower case. -/
def schemaLowerGet (schema_fields : List String) (pl : String) : Option String :=
  (schema_fields.filter (fun f => pyLower f = pl)).getLast?

/-- The partial-match loop of the field matcher: the first schema field
that is neither excluded nor too short and overlaps the pattern as a
substring in either direction (patterns under three characters never
match here). -/
def partialFieldMatch (schema_fields : List String) (pattern_lower : String) : Option String :=
  schema_fields.find? (fun sf =>
    let fl := pyLower sf
    !excluded_fields.contains fl && 3 ≤ fl.toList.length &&
      (3 ≤ pattern_lower.toList.length &&
        (isSubB pattern_lower.toList fl.toList || isSubB fl.toList pattern_lower.toList)))

/-- One pattern of the field matcher: exact case-folded match excluding
coordinate and internal fields, else the partial-match loop (an excluded
exact hit falls through to the partial loop, as in the source). -/
def findForPattern (schema_fields : List String) (pattern : String) : Option String :=
  match schemaLowerGet schema_fields (pyLower pattern) with
  | some f =>
    if excluded_fields.contains (pyLower f) then partialFieldMatch schema_fields (pyLower pattern)
    else some f
  | none => partialFieldMatch schema_fields (pyLower pattern)

/-- The field matched for one intent: its patterns are tried in order and
the first hit is kept (the source breaks out of both loops). -/
def findForIntent (schema_fields : List String) (intent : String) : Option String :=
  let patterns := match FIELD_INTENT_MAPPING.find? (fun e => e.1 = intent) with
    | some e => e.2
    | none => [intent]
  patterns.findSome? (findForPattern schema_fields)

structure FieldMatchResult where
  matched_fields : List String
  missing_intents : List String
  all_schema_fields : List String
deriving DecidableEq

/-- Match the caller's field intents to actual schema field names. -/
def match_fields_to_schema (intents : List String) (schema_fields : List String) :
    FieldMatchResult :=
  { matched_fields := (intents.filterMap (findForIntent schema_fields)).dedup,
    missing_intents := intents.filter (fun i => (findForIntent schema_fields i).isNone),
    all_schema_fields := schema_fields }

/-! ## Scoring engine (query_builder.py lines 1492-1674) -/

/-- The combined dataset text blob: title, name, joined tags, organization. -/
def allDsText (ds : Dataset) : String :=
  pyOr ds.title (pyOr ds.name "") ++ " " ++ pyOr ds.name "" ++ " " ++
    joinSp ds.tags ++ " " ++ pyOr ds.organization ""

/-- Format preference bonus. -/
def formatBonus (fmt : String) : ℚ :=
  if fmt = "CSV" then 0.15
  else if fmt = "XLSX" then 0.12
  else if fmt = "JSON" then 0.10
  else if fmt = "XML" then 0.05
  else if fmt = "PDF" then 0.02
  else if fmt = "API" then 0.08
  else 0

/-- Category bonus: 0.12 for a category named in the query (and stop), else
0.10 per category one of whose raw-table expansions is named in the query
(the source breaks only the inner loop there, so scanning continues). -/
def categoryBonus (env : Env) (query_lower : String) : List String → ℚ
  | [] => 0
  | cat :: rest =>
    if pyIn (pyLower cat) query_lower then 0.12
    else
      (if (assocGet env.table cat).any (fun exp => pyIn (pyLower exp) query_lower) then 0.10
       else 0) + categoryBonus env query_lower rest

/-- Count keyword matches among the first 25 keywords, stopping at 3. -/
def keywordMatchCount (query_lower : String) : List String → ℕ → ℕ
  | [], n => n
  | kw :: rest, n =>
    if pyIn (pyLower kw) query_lower || pyIn query_lower (pyLower kw) then
      if 3 ≤ n + 1 then n + 1 else keywordMatchCount query_lower rest (n + 1)
    else keywordMatchCount query_lower rest n

/-- The resource-level score: base score, resource-title subject match,
format bonus, category and keyword bonuses from the enterprise schema, and
the keyword-index boost. -/
def resourceScore (env : Env) (query : String) (d : Decomposed)
    (kwScores : List (String × ℚ)) (base_score : ℚ) (r : Resource) : ℚ :=
  let rt := pyOr r.title (pyOr r.name "")
  let fmt := pyUpper (pyOr r.format "")
  let res_subject_score := _calculate_subject_match d.subject_tokens d.expanded_subjects rt
  let s1 := base_score + res_subject_score * 0.15 + formatBonus fmt
  let query_lower := pyLower query
  let s2 :=
    match r.id with
    | some rid =>
      if rid ≠ "" then
        match get_resource_schema env rid with
        | some schema_info =>
          let catB := categoryBonus env query_lower schema_info.categories
          let m := keywordMatchCount query_lower (schema_info.keywords.take 25) 0
          s1 + catB + (if 0 < m then pyMin 0.10 ((m : ℚ) * 0.04) else 0)
        | none => s1
      else s1
    | none => s1
  match r.id with
  | some rid =>
    if rid ≠ "" ∧ kwScores.any (fun e => e.1 = rid) then
      s2 + pyMin 0.25 (assocGetQ kwScores rid * 0.08)
    else s2
  | none => s2

/-- Build the candidate record for one resource when its score clears the
0.1 retention threshold. -/
def resCandidate (env : Env) (query : String) (d : Decomposed)
    (kwScores : List (String × ℚ)) (ds_id : Option String)
    (ds_title ds_name org : String) (tags : List String)
    (base_score subject_score location_score : ℚ) (r : Resource) : Option Candidate :=
  let resource_score := resourceScore env query d kwScores base_score r
  if 0.1 < resource_score then
    some { dataset_id := ds_id,
           dataset_title := ds_title,
           dataset_name := ds_name,
           resource_id := r.id,
           resource_title := pyOr r.title (pyOr r.name ""),
           format := pyUpper (pyOr r.format ""),
           organization := org,
           tags := tags.take 5,
           score := pyRound (pyMin 1 resource_score) 3,
           subject_score := pyRound subject_score 3,
           location_score := pyRound location_score 3 }
  else none

/-- Candidates contributed by one dataset: the subject-first hard filter
drops the whole dataset when subject tokens exist but the subject score is
below the 0.15 threshold; otherwise each resource is scored and retained
when above 0.1. -/
def dsCandidates (env : Env) (query : String) (d : Decomposed)
    (kwScores : List (String × ℚ)) (ds : Dataset) : List Candidate :=
  let ds_title := pyOr ds.title (pyOr ds.name "")
  let ds_name := pyOr ds.name ""
  let org := pyOr ds.organization ""
  let all_ds_text := allDsText ds
  let subject_score := _calculate_subject_match d.subject_tokens d.expanded_subjects all_ds_text
  let min_subject_threshold : ℚ := if !d.subject_tokens.isEmpty then 0.15 else 0
  if !d.subject_tokens.isEmpty ∧ subject_score < min_subject_threshold then []
  else
    let location_score := _calculate_location_match d.location_tokens all_ds_text
    let base_score := subject_score * 0.7 + location_score * 0.1
    ds.resources.filterMap
      (resCandidate env query d kwScores ds.id ds_title ds_name org ds.tags
        base_score subject_score location_score)

/-- Descending order on the reported score. -/
def scoreGe (a b : Candidate) : Prop := b.score ≤ a.score

instance : DecidableRel scoreGe := fun a b => inferInstanceAs (Decidable (b.score ≤ a.score))

instance : IsTotal Candidate scoreGe := ⟨fun a b => (le_total b.score a.score).imp id id⟩

instance : IsTrans Candidate scoreGe := ⟨fun _ _ _ h1 h2 => le_trans h2 h1⟩

/-- Search the corpus for resources matching the query: decompose, score
every dataset and resource, sort by score descending (a stable sort, like
Python list.sort) and return the top limit candidates. -/
def suggest_for_query (env : Env) (query : String) (map_data : Corpus) (limit : ℕ) :
    SuggestResult :=
  let d := _decompose_query env query
  let kwScores := find_matching_resources env (d.subject_tokens ++ d.expanded_subjects)
  let candidates := map_data.datasets.flatMap (dsCandidates env query d kwScores)
  let sorted := List.insertionSort scoreGe candidates
  { decomposition := d, candidates := sorted.take limit, total_matched := candidates.length }

/-! ## Rephrasing fallback (query_builder.py lines 1309-1423) -/

/-- Pick the variant with the most synonym-index matches, falling back to
the token itself. -/
def bestVariant (index : String → List String) (token : String) : String :=
  ((get_hebrew_variants token).foldl
    (fun (p : String × ℕ) v =>
      if v.toList.length < 2 then p
      else
        let synonyms := get_all_synonyms index v
        if 1 < synonyms.length ∧ p.2 < synonyms.length then (v, synonyms.length) else p)
    (token, 0)).1

/-- Strategy 1 token list: every token (skipping short and numeric ones)
replaced by its best variant. -/
def rephraseNormalized (index : String → List String) (tokens : List String) : List String :=
  tokens.filterMap (fun token =>
    if token.toList.length < 2 ∨ pyIsDigit token then none
    else some (bestVariant index token))

/-- The gazetteer test of the core-subject strategy (exact matches only). -/
def isLocationToken (token : String) : Bool :=
  ISRAELI_LOCATIONS.contains token ||
    ISRAELI_LOCATIONS.any (fun loc => pyLower loc = pyLower token)

/-- Strategy 1 result list: the joined normalized tokens, kept only when
they differ from the original query and are not blank. -/
def rephraseStrategy1 (query : String) (normalized : List String) : List String :=
  if !normalized.isEmpty ∧ joinSp normalized ≠ query ∧ pyStrip (joinSp normalized) ≠ ""
  then [joinSp normalized] else []

/-- Strategy 2 token list: drop stop words, gazetteer entries and numbers. -/
def coreSubjects (normalized : List String) : List String :=
  normalized.filter (fun token =>
    let token_lower := pyLower token
    !(HEBREW_STOPWORDS.contains token_lower) && !(ENGLISH_STOPWORDS.contains token_lower) &&
      !isLocationToken token && !pyIsDigit token && 2 ≤ token.toList.length)

/-- Strategy 3: from the first core subjects, append the first ASCII
expansion term longer than two characters not already proposed, then stop. -/
def englishFallback (index : String → List String) :
    List String → List String → List String
  | [], rephrased => rephrased
  | token :: rest, rephrased =>
    let synonyms := get_all_synonyms index token
    if 1 < synonyms.length then
      match synonyms.filter (fun s => pyIsAscii s && 2 < s.toList.length) with
      | [] => englishFallback index rest rephrased
      | eng_term :: _ =>
        if rephrased.contains eng_term then englishFallback index rest rephrased
        else rephrased ++ [eng_term]
    else englishFallback index rest rephrased

/-- Generate up to three alternative query phrasings: full morphological
normalization, core subjects only, and category keyword extraction. -/
def rephrase_query (index : String → List String) (query : String) : List String :=
  let tokens := _tokenize_hebrew query false
  if tokens.isEmpty then []
  else
    let normalized := rephraseNormalized index tokens
    let r1 := rephraseStrategy1 query normalized
    let core_subjects := coreSubjects normalized
    let r2 : List String :=
      if !core_subjects.isEmpty ∧ core_subjects.length < normalized.length then
        let core_query := joinSp (core_subjects.take 3)
        if core_query ≠ "" ∧ !r1.contains core_query then r1 ++ [core_query] else r1
      else r1
    (englishFallback index (core_subjects.take 2) r2).take 3

/-- The too-vague check: fewer than one meaningful token after stop-word
removal yields a category suggestion, else none. -/
def get_category_suggestion (query : String) : Option String :=
  let tokens := _tokenize_hebrew query false
  let meaningful := tokens.filter (fun t =>
    2 < t.toList.length && !HEBREW_STOPWORDS.contains (pyLower t))
  if meaningful.length < 1 then
    some ("Query is too vague. Please specify a domain:\n• בריאות (health) - hospitals, clinics, medical data\n• חינוך (education) - schools, students, academic\n• תחבורה (transport) - vehicles, roads, traffic\n• תקציב (budget) - government spending, finance\n• מים (water) - water quality, supply\n• סביבה (environment) - pollution, nature, climate")
  else none

/-! ## Aggregate calculator (server.py lines 449-519) -/

/-- A datastore cell: JSON null, a number, or a string. -/
inductive PyVal where
  | none : PyVal
  | num (q : ℚ) : PyVal
  | str (s : String) : PyVal
deriving DecidableEq

/-- Python record.get: a missing key behaves as null. -/
def pyGet (r : List (String × PyVal)) (k : String) : PyVal :=
  match r.find? (fun e => e.1 = k) with
  | some e => e.2
  | Option.none => PyVal.none

def digitsVal (cs : List Char) : ℕ := cs.foldl (fun a c => 10 * a + (c.toNat - 48)) 0

/-- Exponent part of a float literal: optional sign then digits. -/
def parseExp (cs : List Char) : Option ℤ :=
  let p : Bool × List Char := match cs with
    | '-' :: rest => (true, rest)
    | '+' :: rest => (false, rest)
    | rest => (false, rest)
  if p.2.isEmpty ∨ !p.2.all Char.isDigit then Option.none
  else some (if p.1 then -(digitsVal p.2 : ℤ) else (digitsVal p.2 : ℤ))

/-- Unsigned decimal numeral with optional fraction and exponent. -/
def parseUnsigned (cs : List Char) : Option ℚ :=
  let ip := cs.takeWhile Char.isDigit
  let rest := cs.dropWhile Char.isDigit
  let withFrac : Option (ℚ × List Char) :=
    match rest with
    | '.' :: rest2 =>
      let fp := rest2.takeWhile Char.isDigit
      let rest3 := rest2.dropWhile Char.isDigit
      if ip.isEmpty ∧ fp.isEmpty then Option.none
      else some ((digitsVal ip : ℚ) + (digitsVal fp : ℚ) / ((10 : ℚ) ^ fp.length), rest3)
    | r => if ip.isEmpty then Option.none else some ((digitsVal ip : ℚ), r)
  match withFrac with
  | Option.none => Option.none
  | some (base, rest3) =>
    match rest3 with
    | [] => some base
    | 'e' :: r => (parseExp r).map (fun e => base * (10 : ℚ) ^ e)
    | 'E' :: r => (parseExp r).map (fun e => base * (10 : ℚ) ^ e)
    | _ => Option.none

/-- Python float() on a cell.  A null raises TypeError (caught by the
caller); numbers pass through; strings are parsed as decimal numerals with
optional sign, fraction and exponent, surrounding whitespace ignored. -/
def pyFloat : PyVal → Option ℚ
  | PyVal.none => Option.none
  | PyVal.num q => some q
  | PyVal.str s =>
    match (pyStrip s).toList with
    | '-' :: rest => (parseUnsigned rest).map (fun q => -q)
    | '+' :: rest => parseUnsigned rest
    | rest => parseUnsigned rest

/-- The aggregate loop first removes thousands separators from strings. -/
def pyFloatCell : PyVal → Option ℚ
  | PyVal.str s => pyFloat (PyVal.str ((s.toList.filter (fun c => c ≠ ',')).asString))
  | v => pyFloat v

def NUMERIC_TYPES : List String :=
  ["int", "int4", "int8", "float", "float8", "numeric", "integer", "number"]

/-- A schema field of the datastore response (id and type with the source's
string defaults already applied). -/
structure AggField where
  id : String
  type : String
deriving DecidableEq

/-- The value sniff str(val).replace(",", "").replace(".", "").replace("-",
"").isdigit(): a numeric cell prints as its plain numeral and passes; a
null fails the preceding None check; a string passes when its remaining
characters are digits. -/
def sniffNumeric : PyVal → Bool
  | PyVal.none => false
  | PyVal.num _ => true
  | PyVal.str s =>
    pyIsDigit ((s.toList.filter (fun c => ¬(c = ',' ∨ c = '.' ∨ c = '-'))).asString)

/-- Numeric columns: declared numeric types, else a value sniff over the
first five records; the internal _id column is skipped. -/
def numericFields (records : List (List (String × PyVal))) (fields : List AggField) :
    List String :=
  fields.filterMap (fun f =>
    if f.id = "_id" then Option.none
    else if NUMERIC_TYPES.contains (pyLower f.type) then some f.id
    else if !records.isEmpty ∧ (records.take 5).any (fun r =>
        pyGet r f.id ≠ PyVal.none ∧ sniffNumeric (pyGet r f.id)) then some f.id
    else Option.none)

structure AggEntry where
  sum : ℚ
  count : ℕ
deriving DecidableEq

/-- The reported total: the exact value when integral, else rounded to two
decimal places. -/
def formatTotal (total : ℚ) : ℚ :=
  if total.den = 1 then total else pyRound total 2

/-- The accumulation loop over all records for one column: non-null cells
that parse as floats are added and counted, everything else is skipped. -/
def aggLoop (records : List (List (String × PyVal))) (fid : String) : ℚ × ℕ :=
  records.foldl (fun tc r =>
    let val := pyGet r fid
    if val = PyVal.none then tc
    else
      match pyFloatCell val with
      | some x => (tc.1 + x, tc.2 + 1)
      | Option.none => tc) (0, 0)

def upsertAgg : List (String × AggEntry) → String → AggEntry → List (String × AggEntry)
  | [], k, v => [(k, v)]
  | e :: rest, k, v => if e.1 = k then (k, v) :: rest else e :: upsertAgg rest k v

def lookupAgg (m : List (String × AggEntry)) (k : String) : Option AggEntry :=
  (m.find? (fun e => e.1 = k)).map (fun e => e.2)

/-- Sum and count aggregates for every numeric column with at least one
parsed value. -/
def _calculate_aggregates (records : List (List (String × PyVal))) (fields : List AggField) :
    List (String × AggEntry) :=
  if records.isEmpty then []
  else
    (numericFields records fields).foldl (fun sums fid =>
      let tc := aggLoop records fid
      if 0 < tc.2 then upsertAgg sums fid { sum := formatTotal tc.1, count := tc.2 } else sums)
      []

/-! ## Fallback control flow of datagov_query (server.py lines 644-712) -/

inductive QueryOutcome where
  | results (r : SuggestResult) : QueryOutcome
  | tooVague : QueryOutcome
  | notFound : QueryOutcome
deriving DecidableEq

/-- The score of the first candidate, zero when there is none (the source's
initial_candidates[0].get("score", 0) if initial_candidates else 0). -/
def headScore : List Candidate → ℚ
  | [] => 0
  | c :: _ => c.score

def MIN_CONFIDENCE : ℚ := 0.35

/-- Pure model of the fallback decision in datagov_query: accept a
confident first pass, else try each rephrased query in order and accept the
first confident one, else signal too-vague when the query has no meaningful
token, else signal no-match.  Transport, logging and the exception guard
around each attempt are outside the model. -/
def datagov_decision (env : Env) (map_data : Corpus) (query : String) : QueryOutcome :=
  let first := suggest_for_query env query map_data 5
  if MIN_CONFIDENCE ≤ headScore first.candidates then QueryOutcome.results first
  else
    match (rephrase_query (_build_bidirectional_index env.table) query).find?
        (fun alt => MIN_CONFIDENCE ≤ headScore (suggest_for_query env alt map_data 5).candidates) with
    | some alt => QueryOutcome.results (suggest_for_query env alt map_data 5)
    | Option.none =>
      if (get_category_suggestion query).isSome then QueryOutcome.tooVague
      else QueryOutcome.notFound

/-! ## Helper lemmas -/

theorem strToList_append (a b : String) : (a ++ b).toList = a.toList ++ b.toList := rfl

theorem asString_toList (s : String) : s.toList.asString = s := rfl

theorem isEmpty_false_of_mem {α} {l : List α} {a : α} (h : a ∈ l) : l.isEmpty = false := by
  cases l with
  | nil => cases h
  | cons x xs => rfl

theorem mem_of_getLast?_eq_some {α} {l : List α} {a : α} (h : l.getLast? = some a) : a ∈ l := by
  induction l with
  | nil => cases h
  | cons x xs ih =>
    cases xs with
    | nil =>
      simp only [List.getLast?_singleton, Option.some.injEq] at h
      simp [h]
    | cons y ys =>
      rw [List.getLast?_cons_cons] at h
      exact List.mem_cons_of_mem _ (ih h)

/-! ## C8: totality of the synonym lookup -/

/-- C8: get_all_synonyms never fails and never returns an empty list; it
returns the index entry of the case-folded term when that is non-empty,
else the entry of the raw term when non-empty, else the singleton list of
the term itself. -/
theorem c8_synonym_lookup_total (index : String → List String) (t : String) :
    get_all_synonyms index t ≠ [] ∧
    get_all_synonyms index t =
      (if index (pyLower t) ≠ [] then index (pyLower t)
       else if index t ≠ [] then index t else [t]) := by
  unfold get_all_synonyms
  by_cases h1 : index (pyLower t) = []
  · by_cases h2 : index t = []
    · simp [h1, h2]
    · simp [h1, h2]
  · simp [h1]

/-! ## C2: symmetry of the bidirectional index -/

/-- Membership after folding one group into the index: the index gains the
group for every member of the group. -/
theorem mem_build_inner (g gFull : List String) (acc : String → List String) (x y : String) :
    y ∈ (g.foldl (fun idx term => fun t => if t = term then idx t ++ gFull else idx t) acc) x ↔
      y ∈ acc x ∨ (x ∈ g ∧ y ∈ gFull) := by
  induction g generalizing acc with
  | nil => simp
  | cons a g' ih =>
    rw [List.foldl_cons, ih]
    by_cases hx : x = a
    · subst hx
      simp [List.mem_append]
      tauto
    · simp [hx]

/-- Membership in the folded index over a table. -/
theorem mem_build_index (table : List (String × List String)) (acc : String → List String)
    (x y : String) :
    y ∈ (table.foldl (fun index kv =>
          (kv.1 :: kv.2).foldl
            (fun idx term => fun t => if t = term then idx t ++ (kv.1 :: kv.2) else idx t)
            index) acc) x ↔
      y ∈ acc x ∨ ∃ kv ∈ table, x ∈ kv.1 :: kv.2 ∧ y ∈ kv.1 :: kv.2 := by
  induction table generalizing acc with
  | nil => simp
  | cons kv tbl ih =>
    rw [List.foldl_cons, ih, mem_build_inner]
    constructor
    · rintro ((h | hb) | ⟨kv2, h1, h2⟩)
      · exact Or.inl h
      · exact Or.inr ⟨kv, List.mem_cons_self kv tbl, hb⟩
      · exact Or.inr ⟨kv2, List.mem_cons_of_mem kv h1, h2⟩
    · rintro (h | ⟨kv2, h1, h2⟩)
      · exact Or.inl (Or.inl h)
      · rcases List.mem_cons.mp h1 with heq | h1x
        · subst heq
          exact Or.inl (Or.inr h2)
        · exact Or.inr ⟨kv2, h1x, h2⟩

/-- Characterization of the bidirectional index: y is a synonym entry of x
exactly when some raw group contains both. -/
theorem mem_bidirectional (table : List (String × List String)) (x y : String) :
    y ∈ _build_bidirectional_index table x ↔
      ∃ kv ∈ table, x ∈ kv.1 :: kv.2 ∧ y ∈ kv.1 :: kv.2 := by
  unfold _build_bidirectional_index
  rw [mem_build_index]
  simp

/-- C2 counterexample: for the raw expansion table [("a", ["X"]), ("x",
["q"])], the pair "a", "X" shares the first group and "X" is a synonym of
"a", but "a" is not a synonym of "X": the case-folded lookup of "X" lands
in the second group, so the built index is not symmetric for every raw
expansion table. -/
theorem c2_symmetry_counterexample :
    ("a", ["X"]) ∈ ([("a", ["X"]), ("x", ["q"])] : List (String × List String)) ∧
    "a" ∈ ("a" :: ["X"]) ∧ "X" ∈ ("a" :: ["X"]) ∧
    "X" ∈ get_all_synonyms (_build_bidirectional_index [("a", ["X"]), ("x", ["q"])]) "a" ∧
    "a" ∉ get_all_synonyms (_build_bidirectional_index [("a", ["X"]), ("x", ["q"])]) "X" := by
  refine ⟨by decide, by decide, by decide, by decide, by decide⟩

/-- C2 amended: for a raw expansion table all of whose terms are fixed by
case folding (as the source's SUBJECT_EXPANSIONS is), the built index is
symmetric on every pair of terms sharing a group: term is a synonym of x
iff x is a synonym of term. -/
theorem c2_symmetry_for_casefolded_tables (table : List (String × List String))
    (hlc : ∀ kv ∈ table, pyLower kv.1 = kv.1 ∧ ∀ v ∈ kv.2, pyLower v = v)
    (x term : String) (kv : String × List String) (hkv : kv ∈ table)
    (hx : x ∈ kv.1 :: kv.2) (ht : term ∈ kv.1 :: kv.2) :
    (term ∈ get_all_synonyms (_build_bidirectional_index table) x ↔
     x ∈ get_all_synonyms (_build_bidirectional_index table) term) := by
  have key : ∀ z ∈ kv.1 :: kv.2,
      get_all_synonyms (_build_bidirectional_index table) z =
        _build_bidirectional_index table z := by
    intro z hz
    have hzl : pyLower z = z := by
      rcases hlc kv hkv with ⟨h1, h2⟩
      rcases List.mem_cons.mp hz with h | h
      · rw [h]; exact h1
      · exact h2 z h
    have hmem : z ∈ _build_bidirectional_index table z :=
      (mem_bidirectional table z z).mpr ⟨kv, hkv, hz, hz⟩
    unfold get_all_synonyms
    rw [hzl]
    simp [isEmpty_false_of_mem hmem]
  rw [key x hx, key term ht, mem_bidirectional, mem_bidirectional]
  constructor
  · rintro ⟨kv2, h1, h2, h3⟩
    exact ⟨kv2, h1, h3, h2⟩
  · rintro ⟨kv2, h1, h2, h3⟩
    exact ⟨kv2, h1, h3, h2⟩

/-- Witness for the amended C2 theorem at a concrete lower-case table. -/
theorem c2_symmetry_for_casefolded_tables_witness :
    ("פשיעה" ∈ get_all_synonyms (_build_bidirectional_index [("crime", ["פשיעה"])]) "crime" ↔
     "crime" ∈ get_all_synonyms (_build_bidirectional_index [("crime", ["פשיעה"])]) "פשיעה") :=
  c2_symmetry_for_casefolded_tables [("crime", ["פשיעה"])] (by decide) "crime" "פשיעה"
    ("crime", ["פשיעה"]) (by decide) (by decide) (by decide)

/-! ## C3: graceful degradation of field-availability filtering -/

/-- C3: on a non-empty candidate list the availability filter never
returns an empty list; and when no intent maps to a known availability
key, or when no candidate passes the availability check, the original
candidate list is returned unchanged. -/
theorem c3_graceful_degradation (env : Env) (candidates : List Candidate)
    (field_intents : List String) (h : candidates ≠ []) :
    filter_by_field_availability env candidates field_intents ≠ [] ∧
    (relevantIntents field_intents = [] →
      filter_by_field_availability env candidates field_intents = candidates) ∧
    (candidates.filter (candidatePasses env (relevantIntents field_intents)) = [] →
      filter_by_field_availability env candidates field_intents = candidates) := by
  refine ⟨?_, ?_, ?_⟩
  · unfold filter_by_field_availability
    dsimp only
    split_ifs with h0 h1 h2
    · exact h
    · exact h
    · exact h
    · intro hc
      rw [hc] at h2
      exact h2 rfl
  · intro hrel
    unfold filter_by_field_availability
    dsimp only
    split_ifs with h0 h1 h2
    · rfl
    · rfl
    · rfl
    · rw [hrel] at h1
      exact absurd rfl h1
  · intro hfil
    unfold filter_by_field_availability
    dsimp only
    split_ifs with h0 h1 h2
    · rfl
    · rfl
    · rfl
    · rw [hfil] at h2
      exact absurd rfl h2

def c3cand : Candidate :=
  { dataset_id := some "d"
    dataset_title := "t"
    dataset_name := "n"
    resource_id := some "r1"
    resource_title := "rt"
    format := "CSV"
    organization := "o"
    tags := []
    score := 1
    subject_score := 1
    location_score := 0 }

def c3env : Env := { table := [], schemaIndex := [], kwTable := [], fieldIndex := [] }

/-- Witness for C3 at a concrete candidate list and intent list. -/
theorem c3_graceful_degradation_witness :
    filter_by_field_availability c3env [c3cand] ["phone"] ≠ [] ∧
    (relevantIntents ["phone"] = [] →
      filter_by_field_availability c3env [c3cand] ["phone"] = [c3cand]) ∧
    ([c3cand].filter (candidatePasses c3env (relevantIntents ["phone"])) = [] →
      filter_by_field_availability c3env [c3cand] ["phone"] = [c3cand]) :=
  c3_graceful_degradation c3env [c3cand] ["phone"] (by decide)

/-! ## C10: field-intent matching invariant -/

theorem contains_iff_memS {l : List String} {a : String} : l.contains a = true ↔ a ∈ l :=
  List.elem_iff

theorem partialFieldMatch_sound {schema_fields : List String} {pl f : String}
    (h : partialFieldMatch schema_fields pl = some f) :
    f ∈ schema_fields ∧ pyLower f ∉ excluded_fields := by
  refine ⟨List.mem_of_find?_eq_some h, ?_⟩
  have hp := List.find?_some h
  simp only [Bool.and_eq_true, Bool.not_eq_true'] at hp
  intro hc
  have hcb := contains_iff_memS.mpr hc
  rw [hp.1.1] at hcb
  cases hcb

theorem findForPattern_sound {schema_fields : List String} {pattern f : String}
    (h : findForPattern schema_fields pattern = some f) :
    f ∈ schema_fields ∧ pyLower f ∉ excluded_fields := by
  unfold findForPattern at h
  cases hex : schemaLowerGet schema_fields (pyLower pattern) with
  | some g =>
    rw [hex] at h
    dsimp only at h
    by_cases hg : excluded_fields.contains (pyLower g) = true
    · rw [if_pos hg] at h
      exact partialFieldMatch_sound h
    · rw [if_neg hg] at h
      cases h
      refine ⟨(List.mem_filter.mp (mem_of_getLast?_eq_some hex)).1, ?_⟩
      intro hc
      exact hg (contains_iff_memS.mpr hc)
  | none =>
    rw [hex] at h
    dsimp only at h
    exact partialFieldMatch_sound h

theorem findForIntent_sound {schema_fields : List String} {intent f : String}
    (h : findForIntent schema_fields intent = some f) :
    f ∈ schema_fields ∧ pyLower f ∉ excluded_fields := by
  unfold findForIntent at h
  rcases List.findSome?_eq_some_iff.mp h with ⟨l1, a, l2, _, ha, _⟩
  exact findForPattern_sound ha

/-- C10: the matched fields are a duplicate-free subset of the schema
fields, never an excluded coordinate or internal field, and every
requested intent either contributed a matched field or is reported in
missing_intents. -/
theorem c10_field_matching_invariant (intents schema_fields : List String) :
    (∀ f ∈ (match_fields_to_schema intents schema_fields).matched_fields, f ∈ schema_fields) ∧
    (match_fields_to_schema intents schema_fields).matched_fields.Nodup ∧
    (∀ f ∈ (match_fields_to_schema intents schema_fields).matched_fields,
      pyLower f ∉ excluded_fields) ∧
    (∀ i ∈ intents,
      i ∈ (match_fields_to_schema intents schema_fields).missing_intents ∨
      ∃ f ∈ (match_fields_to_schema intents schema_fields).matched_fields,
        findForIntent schema_fields i = some f) := by
  refine ⟨?_, ?_, ?_, ?_⟩
  · intro f hf
    rcases List.mem_filterMap.mp (List.mem_dedup.mp hf) with ⟨i, _, hi⟩
    exact (findForIntent_sound hi).1
  · exact List.nodup_dedup _
  · intro f hf
    rcases List.mem_filterMap.mp (List.mem_dedup.mp hf) with ⟨i, _, hi⟩
    exact (findForIntent_sound hi).2
  · intro i hi
    cases hfind : findForIntent schema_fields i with
    | none =>
      left
      exact List.mem_filter.mpr ⟨hi, by simp [hfind]⟩
    | some f =>
      right
      exact ⟨f, List.mem_dedup.mpr (List.mem_filterMap.mpr ⟨i, hi, hfind⟩), rfl⟩

/-! ## C4: rephrasing output bound -/

/-- C4 counterexample: for the query "court" the category-substitution
strategy returns the original query itself as the only alternative, so not
every returned alternative differs from the original query string. -/
theorem c4_counterexample :
    rephrase_query _BIDIRECTIONAL_EXPANSIONS "court" = ["court"] := by decide

/-- C4 amended: rephrase_query returns at most three alternatives, and the
full-normalization alternative always differs from the original query; an
alternative produced by the category-substitution strategy, however, may
equal the original query (see the counterexample), so not every
alternative differs from it. -/
theorem c4_rephrase_bound (index : String → List String) (query : String) :
    (rephrase_query index query).length ≤ 3 ∧
    ∀ s ∈ rephraseStrategy1 query (rephraseNormalized index (_tokenize_hebrew query false)),
      s ≠ query := by
  constructor
  · unfold rephrase_query
    dsimp only
    split_ifs
    all_goals simp only [List.length_take, List.length_nil]
    all_goals omega
  · intro s hs
    unfold rephraseStrategy1 at hs
    split_ifs at hs with hc
    · have heq := List.mem_singleton.mp hs
      subst heq
      exact hc.2.1
    · cases hs

/-- Witness for the amended C4 theorem at a concrete query. -/
theorem c4_rephrase_bound_witness :
    (rephrase_query _BIDIRECTIONAL_EXPANSIONS "tel aviv data").length ≤ 3 ∧
    ∀ s ∈ rephraseStrategy1 "tel aviv data"
        (rephraseNormalized _BIDIRECTIONAL_EXPANSIONS (_tokenize_hebrew "tel aviv data" false)),
      s ≠ "tel aviv data" :=
  c4_rephrase_bound _BIDIRECTIONAL_EXPANSIONS "tel aviv data"

/-! ## Rounding bounds -/

theorem rheInt_le (q : ℚ) : (rheInt q : ℚ) ≤ q + 1/2 := by
  have hfl := Int.floor_le q
  unfold rheInt
  dsimp only
  split_ifs with h1 h2 h3 <;> push_cast <;> linarith

theorem le_rheInt (q : ℚ) : (⌊q⌋ : ℚ) ≤ (rheInt q : ℚ) := by
  unfold rheInt
  dsimp only
  split_ifs <;> push_cast <;> linarith

theorem rheInt_le_of_le (x : ℚ) (m : ℤ) (h : x ≤ m) : rheInt x ≤ m := by
  have h2 := rheInt_le x
  have h3 : (rheInt x : ℚ) < (m : ℚ) + 1 := by linarith
  have h4 : rheInt x < m + 1 := by exact_mod_cast h3
  omega

theorem rheInt_nonneg (x : ℚ) (h : 0 ≤ x) : 0 ≤ rheInt x := by
  have h2 : (0 : ℚ) ≤ (⌊x⌋ : ℚ) := by exact_mod_cast Int.floor_nonneg.mpr h
  have h3 : (0 : ℚ) ≤ (rheInt x : ℚ) := le_trans h2 (le_rheInt x)
  exact_mod_cast h3

theorem pyRound_mem_unit (q : ℚ) (n : ℕ) (h0 : 0 ≤ q) (h1 : q ≤ 1) :
    0 ≤ pyRound q n ∧ pyRound q n ≤ 1 := by
  unfold pyRound
  dsimp only
  have hppos : (0 : ℚ) < (((10 : ℕ) ^ n : ℕ) : ℚ) := by
    have : 0 < (10 : ℕ) ^ n := pow_pos (by norm_num) n
    exact_mod_cast this
  constructor
  · apply div_nonneg _ (le_of_lt hppos)
    have h2 := rheInt_nonneg (q * (((10 : ℕ) ^ n : ℕ) : ℚ)) (mul_nonneg h0 (le_of_lt hppos))
    exact_mod_cast h2
  · rw [div_le_one hppos]
    have hle : q * (((10 : ℕ) ^ n : ℕ) : ℚ) ≤ (((10 : ℕ) ^ n : ℕ) : ℚ) := by nlinarith
    have h4 : rheInt (q * (((10 : ℕ) ^ n : ℕ) : ℚ)) ≤ ((10 : ℕ) ^ n : ℤ) :=
      rheInt_le_of_le _ _ (by exact_mod_cast hle)
    have h5 : ((rheInt (q * (((10 : ℕ) ^ n : ℕ) : ℚ)) : ℤ) : ℚ) ≤ (((10 : ℕ) ^ n : ℤ) : ℚ) := by
      exact_mod_cast h4
    calc ((rheInt (q * (((10 : ℕ) ^ n : ℕ) : ℚ)) : ℤ) : ℚ)
        ≤ (((10 : ℕ) ^ n : ℤ) : ℚ) := h5
      _ = (((10 : ℕ) ^ n : ℕ) : ℚ) := by push_cast; ring

/-! ## Candidate provenance lemmas -/

theorem resCandidate_score {env : Env} {query : String} {d : Decomposed}
    {kwScores : List (String × ℚ)} {ds_id : Option String} {ds_title ds_name org : String}
    {tags : List String} {base_score subject_score location_score : ℚ} {r : Resource}
    {c : Candidate}
    (h : resCandidate env query d kwScores ds_id ds_title ds_name org tags base_score
      subject_score location_score r = some c) :
    ∃ rs : ℚ, 0.1 < rs ∧ c.score = pyRound (pyMin 1 rs) 3 := by
  unfold resCandidate at h
  dsimp only at h
  split_ifs at h with hgt
  cases h
  exact ⟨_, hgt, rfl⟩

theorem mem_dsCandidates_score {env : Env} {query : String} {d : Decomposed}
    {kwScores : List (String × ℚ)} {ds : Dataset} {c : Candidate}
    (h : c ∈ dsCandidates env query d kwScores ds) :
    ∃ rs : ℚ, 0.1 < rs ∧ c.score = pyRound (pyMin 1 rs) 3 := by
  unfold dsCandidates at h
  dsimp only at h
  split at h
  all_goals split at h
  all_goals first
  | exact absurd h (List.not_mem_nil c)
  | (rcases List.mem_filterMap.mp h with ⟨r, _, hr⟩; exact resCandidate_score hr)

theorem mem_suggest_candidates {env : Env} {query : String} {map_data : Corpus} {limit : ℕ}
    {c : Candidate}
    (h : c ∈ (suggest_for_query env query map_data limit).candidates) :
    ∃ ds ∈ map_data.datasets,
      c ∈ dsCandidates env query (_decompose_query env query)
        (find_matching_resources env ((_decompose_query env query).subject_tokens ++
          (_decompose_query env query).expanded_subjects)) ds := by
  unfold suggest_for_query at h
  dsimp only at h
  have h2 := List.mem_of_mem_take h
  rw [(List.perm_insertionSort scoreGe _).mem_iff] at h2
  exact List.mem_flatMap.mp h2

/-! ## C7: candidate retention, clamping, ordering -/

/-- C7: every candidate returned by suggest_for_query arises from a
computed resource score above 0.1 and reports that score clamped to [0, 1]
(then rounded to three decimals); the candidate list is sorted by reported
score descending and has at most limit entries. -/
theorem c7_retention_clamp_order (env : Env) (query : String) (map_data : Corpus) (limit : ℕ) :
    (∀ c ∈ (suggest_for_query env query map_data limit).candidates,
      ∃ rs : ℚ, 0.1 < rs ∧ c.score = pyRound (pyMin 1 rs) 3 ∧ 0 ≤ c.score ∧ c.score ≤ 1) ∧
    List.Pairwise scoreGe (suggest_for_query env query map_data limit).candidates ∧
    (suggest_for_query env query map_data limit).candidates.length ≤ limit := by
  refine ⟨?_, ?_, ?_⟩
  · intro c hc
    rcases mem_suggest_candidates hc with ⟨ds, _, hds⟩
    rcases mem_dsCandidates_score hds with ⟨rs, hrs, hscore⟩
    have h01 : (0 : ℚ) < 0.1 := by norm_num
    have hmin0 : 0 ≤ pyMin 1 rs := by
      unfold pyMin
      split_ifs with hle
      · norm_num
      · linarith
    have hmin1 : pyMin 1 rs ≤ 1 := by
      unfold pyMin
      split_ifs with hle
      · exact le_refl 1
      · linarith [not_le.mp hle]
    rcases pyRound_mem_unit (pyMin 1 rs) 3 hmin0 hmin1 with ⟨hb0, hb1⟩
    exact ⟨rs, hrs, hscore, by rw [hscore]; exact hb0, by rw [hscore]; exact hb1⟩
  · unfold suggest_for_query
    dsimp only
    exact List.Pairwise.sublist (List.take_sublist _ _) (List.sorted_insertionSort scoreGe _)
  · unfold suggest_for_query
    dsimp only
    rw [List.length_take]
    exact min_le_left _ _

/-- Witness instantiating C7 at a concrete environment and corpus. -/
theorem c7_retention_clamp_order_witness :
    (∀ c ∈ (suggest_for_query ⟨[], [], [], []⟩ "hospitals" ⟨[]⟩ 5).candidates,
      ∃ rs : ℚ, 0.1 < rs ∧ c.score = pyRound (pyMin 1 rs) 3 ∧ 0 ≤ c.score ∧ c.score ≤ 1) ∧
    List.Pairwise scoreGe (suggest_for_query ⟨[], [], [], []⟩ "hospitals" ⟨[]⟩ 5).candidates ∧
    (suggest_for_query ⟨[], [], [], []⟩ "hospitals" ⟨[]⟩ 5).candidates.length ≤ 5 :=
  c7_retention_clamp_order ⟨[], [], [], []⟩ "hospitals" ⟨[]⟩ 5

/-! ## C1: subject-first hard filter -/

/-- C1: when the decomposition has subject tokens and a dataset's subject
score over its combined text is below 0.15, that dataset contributes no
candidates at all, and every candidate suggest_for_query returns comes
from the (necessarily non-empty) candidate list of some dataset of the
corpus — so no candidate of the result comes from the filtered dataset,
however strong its location match. -/
theorem c1_subject_hard_filter (env : Env) (query : String) (map_data : Corpus) (limit : ℕ)
    (ds : Dataset) (hds : ds ∈ map_data.datasets)
    (hsub : (_decompose_query env query).subject_tokens ≠ [])
    (hlow : _calculate_subject_match (_decompose_query env query).subject_tokens
      (_decompose_query env query).expanded_subjects (allDsText ds) < 0.15) :
    dsCandidates env query (_decompose_query env query)
      (find_matching_resources env ((_decompose_query env query).subject_tokens ++
        (_decompose_query env query).expanded_subjects)) ds = [] ∧
    ∀ c ∈ (suggest_for_query env query map_data limit).candidates,
      ∃ ds2 ∈ map_data.datasets,
        c ∈ dsCandidates env query (_decompose_query env query)
          (find_matching_resources env ((_decompose_query env query).subject_tokens ++
            (_decompose_query env query).expanded_subjects)) ds2 ∧
        dsCandidates env query (_decompose_query env query)
          (find_matching_resources env ((_decompose_query env query).subject_tokens ++
            (_decompose_query env query).expanded_subjects)) ds2 ≠ [] := by
  have hisEmpty : (_decompose_query env query).subject_tokens.isEmpty = false := by
    cases hcase : (_decompose_query env query).subject_tokens with
    | nil => exact absurd hcase hsub
    | cons a l => rfl
  constructor
  · unfold dsCandidates
    dsimp only
    rw [hisEmpty]
    rw [if_pos]
    exact ⟨rfl, hlow⟩
  · intro c hc
    rcases mem_suggest_candidates hc with ⟨ds2, hds2, hmem⟩
    refine ⟨ds2, hds2, hmem, ?_⟩
    intro hne
    rw [hne] at hmem
    exact absurd hmem (List.not_mem_nil c)

def c1env : Env := { table := SUBJECT_EXPANSIONS, schemaIndex := [], kwTable := [], fieldIndex := [] }

def c1ds : Dataset :=
  { id := some "d2"
    title := some "Road Maintenance"
    name := some "road-maintenance"
    tags := ["roads"]
    organization := some "ministry of transport"
    resources := [{ id := some "r9"
                    title := some "roads csv"
                    name := Option.none
                    format := some "CSV" }] }

def c1corpus : Corpus := { datasets := [c1ds] }

/-- Witness for C1: against the real expansion table, the query
"hospitals" has subject tokens, the Road Maintenance dataset scores below
the 0.15 threshold, and its candidate list is empty. -/
theorem c1_subject_hard_filter_witness :
    dsCandidates c1env "hospitals" (_decompose_query c1env "hospitals")
      (find_matching_resources c1env ((_decompose_query c1env "hospitals").subject_tokens ++
        (_decompose_query c1env "hospitals").expanded_subjects)) c1ds = [] :=
  (c1_subject_hard_filter c1env "hospitals" c1corpus 5 c1ds (by decide) (by decide)
    (by decide)).1

/-! ## C5: too-vague signalling -/

def c5corpus : Corpus :=
  { datasets := [{ id := some "d1"
                   title := some "xyz"
                   name := some "xyz"
                   tags := []
                   organization := Option.none
                   resources := [{ id := some "r1"
                                   title := some "xyz"
                                   name := Option.none
                                   format := some "CSV" }] }] }

/-- C5 counterexample: the query "xy" has no meaningful token, so
get_category_suggestion flags it as too vague, yet against a corpus that
matches it the engine returns results instead of the vague signal: the
vague check only runs after scoring and rephrasing, not instead of them. -/
theorem c5_counterexample :
    (get_category_suggestion "xy").isSome = true ∧
    datagov_decision ⟨[], [], [], []⟩ c5corpus "xy" ≠ QueryOutcome.tooVague := by
  refine ⟨by decide, by decide⟩

/-- C5 amended: the engine signals query-too-vague exactly when the
initial pass scores below the 0.35 confidence threshold, every rephrased
alternative also scores below it, and the query has fewer than one
meaningful token; the vague signal is a constructor distinct from the
no-match signal.  (A vague query that nonetheless scores confidently
returns results, and rephrasing is attempted before the vague check.) -/
theorem c5_vague_signal (env : Env) (map_data : Corpus) (query : String) :
    (datagov_decision env map_data query = QueryOutcome.tooVague ↔
      (headScore (suggest_for_query env query map_data 5).candidates < MIN_CONFIDENCE ∧
       (∀ alt ∈ rephrase_query (_build_bidirectional_index env.table) query,
         headScore (suggest_for_query env alt map_data 5).candidates < MIN_CONFIDENCE) ∧
       (get_category_suggestion query).isSome = true)) ∧
    QueryOutcome.tooVague ≠ QueryOutcome.notFound := by
  constructor
  · unfold datagov_decision
    dsimp only
    split_ifs with h1 h3
    · constructor
      · intro h
        cases h
      · rintro ⟨h2, -, -⟩
        exact absurd h1 (not_le.mpr h2)
    · cases hfind : (rephrase_query (_build_bidirectional_index env.table) query).find?
          (fun alt =>
            MIN_CONFIDENCE ≤ headScore (suggest_for_query env alt map_data 5).candidates) with
      | some alt =>
        dsimp only
        constructor
        · intro h
          cases h
        · rintro ⟨-, h2, -⟩
          have hp := List.find?_some hfind
          have hmem := List.mem_of_find?_eq_some hfind
          have hge := of_decide_eq_true hp
          exact absurd hge (not_le.mpr (h2 alt hmem))
      | none =>
        dsimp only
        constructor
        · rintro -
          refine ⟨not_le.mp h1, ?_, h3⟩
          intro alt halt
          have hnot := List.find?_eq_none.mp hfind alt halt
          by_contra hc
          push_neg at hc
          exact hnot (decide_eq_true hc)
        · rintro -
          rfl
    · cases hfind : (rephrase_query (_build_bidirectional_index env.table) query).find?
          (fun alt =>
            MIN_CONFIDENCE ≤ headScore (suggest_for_query env alt map_data 5).candidates) with
      | some alt =>
        dsimp only
        constructor
        · intro h
          cases h
        · rintro ⟨-, h2, -⟩
          have hp := List.find?_some hfind
          have hmem := List.mem_of_find?_eq_some hfind
          have hge := of_decide_eq_true hp
          exact absurd hge (not_le.mpr (h2 alt hmem))
      | none =>
        dsimp only
        constructor
        · intro h
          cases h
        · rintro ⟨-, -, h4⟩
          exact absurd h4 h3
  · intro h
    cases h

/-- Witness for C5 at a concrete environment: the vague query "xy" with an
empty corpus yields the too-vague signal. -/
theorem c5_vague_signal_witness :
    datagov_decision ⟨[], [], [], []⟩ ⟨[]⟩ "xy" = QueryOutcome.tooVague :=
  ((c5_vague_signal ⟨[], [], [], []⟩ ⟨[]⟩ "xy").1).mpr
    ⟨by decide, by decide, by decide⟩

/-! ## C6: subject-score monotonicity -/

theorem isPrefixB_append (n : List Char) : ∀ (h t : List Char),
    isPrefixB n h = true → isPrefixB n (h ++ t) = true := by
  induction n with
  | nil =>
    intro h t _
    rfl
  | cons a as ih =>
    intro h t hp
    cases h with
    | nil => cases hp
    | cons b bs =>
      simp only [isPrefixB, Bool.and_eq_true] at hp ⊢
      exact ⟨hp.1, ih bs t hp.2⟩

theorem isSubB_nil_needle (l : List Char) : isSubB [] l = true := by
  cases l <;> rfl

theorem isSubB_append (n : List Char) : ∀ (h t : List Char),
    isSubB n h = true → isSubB n (h ++ t) = true := by
  intro h
  induction h with
  | nil =>
    intro t hs
    cases n with
    | nil => exact isSubB_nil_needle t
    | cons a as => cases hs
  | cons c cs ih =>
    intro t hs
    rw [List.cons_append]
    unfold isSubB at hs ⊢
    rw [Bool.or_eq_true] at hs ⊢
    rcases hs with h1 | h2
    · exact Or.inl (by
        have := isPrefixB_append n (c :: cs) t h1
        rw [List.cons_append] at this
        exact this)
    · exact Or.inr (ih t h2)

theorem splitAuxP_cons (sep : Char → Bool) (a : Char) (l acc : List Char) :
    splitAuxP sep (a :: l) acc =
      if sep a then acc.reverse :: splitAuxP sep l [] else splitAuxP sep l (a :: acc) := rfl

theorem splitAuxP_append_sep (sep : Char → Bool) (c : Char) (hc : sep c = true)
    (l2 : List Char) : ∀ (l1 acc : List Char),
    splitAuxP sep (l1 ++ c :: l2) acc = splitAuxP sep l1 acc ++ splitAuxP sep l2 [] := by
  intro l1
  induction l1 with
  | nil =>
    intro acc
    rw [List.nil_append, splitAuxP_cons, hc]
    rfl
  | cons a l1x ih =>
    intro acc
    rw [List.cons_append]
    simp only [splitAuxP_cons]
    by_cases ha : sep a = true
    · rw [ha]
      simp only [if_true]
      rw [ih []]
      rfl
    · rw [Bool.not_eq_true] at ha
      rw [ha]
      simp only [Bool.false_eq_true, if_false]
      exact ih (a :: acc)

theorem splitAuxP_no_sep (sep : Char → Bool) : ∀ (l acc : List Char),
    l.all (fun c => !sep c) = true → splitAuxP sep l acc = [acc.reverse ++ l] := by
  intro l
  induction l with
  | nil =>
    intro acc _
    simp [splitAuxP]
  | cons a lx ih =>
    intro acc hl
    rw [List.all_cons, Bool.and_eq_true] at hl
    have ha : sep a = false := by
      rcases hl with ⟨h1, -⟩
      cases hsa : sep a
      · rfl
      · rw [hsa] at h1
        cases h1
    rw [splitAuxP_cons, ha]
    simp only [Bool.false_eq_true, if_false]
    rw [ih (a :: acc) hl.2]
    simp

theorem str_toList_eq_nil_iff (s : String) : s.toList = [] ↔ s = "" := by
  constructor
  · intro h
    cases s with
    | mk data =>
      cases h
      rfl
  · intro h
    rw [h]
    rfl

theorem pyLowerL_append_token (t st : String) (hlow : pyLowerL st = st.toList) :
    pyLowerL (t ++ " " ++ st) = pyLowerL t ++ ' ' :: st.toList := by
  unfold pyLowerL at hlow ⊢
  rw [strToList_append, strToList_append, List.map_append, List.map_append, hlow]
  rw [show List.map pyLowerChar " ".toList = [' '] from by decide]
  simp [List.append_assoc]

theorem tokenKeep_false_some (st : String) (hstne : st ≠ "")
    (hlen : 2 ≤ st.toList.length) (hstop : STOP_WORDS.contains st = false) :
    tokenKeep false st = some st := by
  have hmem : st ∉ STOP_WORDS := by
    intro hm
    have h2 := contains_iff_memS.mpr hm
    rw [hstop] at h2
    cases h2
  have hcond : ¬(st = "" ∨ st.toList.length ≤ 1 ∨ STOP_WORDS.contains st = true) := by
    push_neg
    refine ⟨hstne, by omega, ?_⟩
    intro h2
    exact hmem (contains_iff_memS.mp h2)
  unfold tokenKeep
  rw [if_neg hcond, if_neg (by decide : ¬((false : Bool) = true)),
    if_pos (by omega : 1 < st.toList.length)]

/-- Appending a separator and a clean token to a text appends exactly that
token to the token list. -/
theorem tokenize_append_token (t st : String)
    (hlow : pyLowerL st = st.toList)
    (hsep : st.toList.all (fun c => !isSepChar c) = true)
    (hlen : 2 ≤ st.toList.length)
    (hstop : STOP_WORDS.contains st = false) :
    _tokenize_hebrew (t ++ " " ++ st) false = _tokenize_hebrew t false ++ [st] := by
  have hstne : st ≠ "" := by
    intro h
    rw [h] at hlen
    simp at hlen
  have hne : (t ++ " " ++ st) ≠ "" := by
    intro h
    have h2 := congrArg String.toList h
    rw [strToList_append, strToList_append] at h2
    rcases List.append_eq_nil.mp h2 with ⟨h3, h4⟩
    rcases List.append_eq_nil.mp h3 with ⟨-, h5⟩
    cases h5
  have hkeep : List.filterMap (tokenKeep false) [st] = [st] := by
    simp [List.filterMap_cons, tokenKeep_false_some st hstne hlen hstop]
  unfold _tokenize_hebrew
  rw [if_neg hne, pyLowerL_append_token t st hlow,
    splitAuxP_append_sep isSepChar ' ' (by decide) st.toList (pyLowerL t) [],
    splitAuxP_no_sep isSepChar st.toList [] hsep]
  by_cases ht : t = ""
  · rw [if_pos ht]
    subst ht
    show List.filterMap (tokenKeep false)
      ((splitAuxP isSepChar (pyLowerL "") [] ++ [List.reverse [] ++ st.toList]).map List.asString)
        = [] ++ [st]
    rw [show pyLowerL "" = [] from rfl]
    rw [show splitAuxP isSepChar [] [] = [[]] from rfl]
    simp only [List.reverse_nil, List.nil_append, List.map_append, List.map_cons,
      List.map_nil, List.filterMap_append]
    rw [show List.asString st.toList = st from rfl]
    rw [hkeep]
    rfl
  · rw [if_neg ht]
    simp only [List.reverse_nil, List.nil_append, List.map_append, List.map_cons,
      List.map_nil, List.filterMap_append]
    rw [show List.asString st.toList = st from rfl]
    rw [hkeep]


/-- Per-subject-token contribution to the subject score, as in the source. -/
def stSumF (sts : List String) (text : String) : ℚ :=
  (sts.map (fun st =>
    if st ∈ _tokenize_hebrew text false then (1 : ℚ)
    else if isSubB st.toList (pyLowerL text) then 0.7 else 0)).sum

/-- Per-expansion contribution to the subject score, as in the source. -/
def expSumF (exps : List String) (text : String) : ℚ :=
  (exps.map (fun e =>
    if isSubB (pyLowerL e) (pyLowerL text) then (0.8 : ℚ)
    else if ((splitAuxP isWSChar (pyLowerL e) []).filter (fun w => !w.isEmpty)).any
        (fun w => 2 < w.length && isSubB w (pyLowerL text)) then 0.4
    else 0)).sum

theorem calc_subject_match_eq (sts exps : List String) (text : String)
    (hne : text ≠ "") (hsne : ¬(sts.isEmpty ∧ exps.isEmpty))
    (hT : ((sts.length : ℚ) + (exps.length : ℚ) * 0.5) ≠ 0) :
    _calculate_subject_match sts exps text =
      pyMin 1 ((stSumF sts text + expSumF exps text) /
        ((sts.length : ℚ) + (exps.length : ℚ) * 0.5)) := by
  unfold _calculate_subject_match stSumF expSumF
  rw [if_neg hne, if_neg hsne]
  dsimp only
  rw [if_neg hT]

theorem stSumF_nonneg (sts : List String) (text : String) : 0 ≤ stSumF sts text := by
  apply List.sum_nonneg
  intro q hq
  rcases List.mem_map.mp hq with ⟨s, -, rfl⟩
  split_ifs <;> norm_num

theorem expSumF_nonneg (exps : List String) (text : String) : 0 ≤ expSumF exps text := by
  apply List.sum_nonneg
  intro q hq
  rcases List.mem_map.mp hq with ⟨e, -, rfl⟩
  split_ifs <;> norm_num

theorem stContrib_mono (tokens1 tokens2 : List String) (low1 low2 : List Char)
    (htok : ∀ s, s ∈ tokens1 → s ∈ tokens2)
    (hsub : ∀ n, isSubB n low1 = true → isSubB n low2 = true)
    (s : String) :
    (if s ∈ tokens1 then (1 : ℚ) else if isSubB s.toList low1 then 0.7 else 0) ≤
      (if s ∈ tokens2 then (1 : ℚ) else if isSubB s.toList low2 then 0.7 else 0) := by
  by_cases h1 : s ∈ tokens1
  · rw [if_pos h1, if_pos (htok s h1)]
  · rw [if_neg h1]
    by_cases h2 : s ∈ tokens2
    · rw [if_pos h2]
      split_ifs <;> norm_num
    · rw [if_neg h2]
      by_cases h3 : isSubB s.toList low1 = true
      · rw [if_pos h3, if_pos (hsub _ h3)]
      · rw [if_neg h3]
        split_ifs <;> norm_num

theorem expContrib_mono (low1 low2 : List Char)
    (hsub : ∀ n, isSubB n low1 = true → isSubB n low2 = true)
    (e : String) :
    (if isSubB (pyLowerL e) low1 then (0.8 : ℚ)
     else if ((splitAuxP isWSChar (pyLowerL e) []).filter (fun w => !w.isEmpty)).any
         (fun w => 2 < w.length && isSubB w low1) then 0.4
     else 0) ≤
      (if isSubB (pyLowerL e) low2 then (0.8 : ℚ)
       else if ((splitAuxP isWSChar (pyLowerL e) []).filter (fun w => !w.isEmpty)).any
           (fun w => 2 < w.length && isSubB w low2) then 0.4
       else 0) := by
  by_cases h1 : isSubB (pyLowerL e) low1 = true
  · rw [if_pos h1, if_pos (hsub _ h1)]
  · rw [if_neg h1]
    by_cases h2 : isSubB (pyLowerL e) low2 = true
    · rw [if_pos h2]
      split_ifs <;> norm_num
    · rw [if_neg h2]
      by_cases h3 : ((splitAuxP isWSChar (pyLowerL e) []).filter (fun w => !w.isEmpty)).any
          (fun w => 2 < w.length && isSubB w low1) = true
      · have h4 : ((splitAuxP isWSChar (pyLowerL e) []).filter (fun w => !w.isEmpty)).any
            (fun w => 2 < w.length && isSubB w low2) = true := by
          rw [List.any_eq_true] at h3 ⊢
          rcases h3 with ⟨w, hw, hpw⟩
          rw [Bool.and_eq_true] at hpw
          exact ⟨w, hw, by rw [Bool.and_eq_true]; exact ⟨hpw.1, hsub _ hpw.2⟩⟩
        rw [if_pos h3, if_pos h4]
      · rw [if_neg h3]
        split_ifs <;> norm_num

/-- C6 counterexample: the subject score is clamped at 1 by min, so a
dataset text already scoring 1.0 does not score strictly higher after an
exact occurrence of the subject token "xy" is appended to it. -/
theorem c6_counterexample :
    _calculate_subject_match ["xy"] [] "xy" = 1 ∧
    _calculate_subject_match ["xy"] [] ("xy" ++ " " ++ "xy") = 1 := by
  refine ⟨by decide, by decide⟩

theorem pyMin_one_lt_pyMin_one (a b T : ℚ) (hT : 0 < T) (hab : a + 3/10 ≤ b)
    (hcap : pyMin 1 (a / T) < 1) : pyMin 1 (a / T) < pyMin 1 (b / T) := by
  unfold pyMin at hcap ⊢
  by_cases hc1 : (1 : ℚ) ≤ a / T
  · rw [if_pos hc1] at hcap
    exact absurd hcap (lt_irrefl 1)
  · rw [if_neg hc1] at hcap ⊢
    by_cases hc2 : (1 : ℚ) ≤ b / T
    · rw [if_pos hc2]
      exact hcap
    · rw [if_neg hc2]
      rw [div_lt_div_iff hT hT]
      nlinarith

theorem pyMin_one_pos (b T : ℚ) (hb : 0 < b) (hT : 0 < T) : 0 < pyMin 1 (b / T) := by
  unfold pyMin
  split_ifs with h
  · norm_num
  · exact div_pos hb hT

/-- C6 amended: appending an exact occurrence of one of the query's
subject tokens to the end of a dataset's combined text strictly increases
the subject score, provided the token is a clean token (case-stable under
lowercasing, no separator characters, at least two characters, not a stop
word) that was not already an exact token of the text, and the original
score is strictly below the 1.0 clamp.  Without the last proviso the
score can stay equal (see the counterexample at the clamp). -/
theorem c6_subject_score_strict_mono (subject_tokens expanded_subjects : List String)
    (text st : String)
    (hmem : st ∈ subject_tokens)
    (hlow : pyLowerL st = st.toList)
    (hsep : st.toList.all (fun c => !isSepChar c) = true)
    (hlen : 2 ≤ st.toList.length)
    (hstop : STOP_WORDS.contains st = false)
    (hnew : st ∉ _tokenize_hebrew text false)
    (hcap : _calculate_subject_match subject_tokens expanded_subjects text < 1) :
    _calculate_subject_match subject_tokens expanded_subjects text <
      _calculate_subject_match subject_tokens expanded_subjects (text ++ " " ++ st) := by
  have hstne : st ≠ "" := by
    intro h
    rw [h] at hlen
    simp at hlen
  have htokens := tokenize_append_token text st hlow hsep hlen hstop
  have hlowapp := pyLowerL_append_token text st hlow
  have hsubmono : ∀ n, isSubB n (pyLowerL text) = true →
      isSubB n (pyLowerL (text ++ " " ++ st)) = true := by
    intro n hn
    rw [hlowapp]
    exact isSubB_append n (pyLowerL text) (' ' :: st.toList) hn
  have htokmono : ∀ s, s ∈ _tokenize_hebrew text false →
      s ∈ _tokenize_hebrew (text ++ " " ++ st) false := by
    intro s hs
    rw [htokens]
    exact List.mem_append_left _ hs
  have hstmem2 : st ∈ _tokenize_hebrew (text ++ " " ++ st) false := by
    rw [htokens]
    exact List.mem_append_right _ (List.mem_singleton.mpr rfl)
  have hne2 : (text ++ " " ++ st) ≠ "" := by
    intro h
    have h2 := congrArg String.toList h
    rw [strToList_append, strToList_append] at h2
    rcases List.append_eq_nil.mp h2 with ⟨-, h5⟩
    rw [show st.toList = [] from h5] at hlen
    simp at hlen
  have hsne : ¬(subject_tokens.isEmpty ∧ expanded_subjects.isEmpty) := by
    rintro ⟨h1, -⟩
    rw [List.isEmpty_iff] at h1
    rw [h1] at hmem
    exact absurd hmem (List.not_mem_nil st)
  have hlenpos : 1 ≤ (subject_tokens.length : ℚ) := by
    have h1 : 1 ≤ subject_tokens.length := List.length_pos.mpr (List.ne_nil_of_mem hmem)
    exact_mod_cast h1
  have hexplen : (0 : ℚ) ≤ (expanded_subjects.length : ℚ) := by positivity
  have hTpos : 0 < (subject_tokens.length : ℚ) + (expanded_subjects.length : ℚ) * 0.5 := by
    nlinarith
  have hTne : ((subject_tokens.length : ℚ) + (expanded_subjects.length : ℚ) * 0.5) ≠ 0 :=
    ne_of_gt hTpos
  have hstSum : stSumF subject_tokens text + 3/10 ≤
      stSumF subject_tokens (text ++ " " ++ st) := by
    rcases List.append_of_mem hmem with ⟨l1, l2, rfl⟩
    unfold stSumF
    simp only [List.map_append, List.map_cons, List.sum_append, List.sum_cons]
    have hA : ((l1.map (fun s =>
        if s ∈ _tokenize_hebrew text false then (1 : ℚ)
        else if isSubB s.toList (pyLowerL text) then 0.7 else 0)).sum) ≤
        ((l1.map (fun s =>
        if s ∈ _tokenize_hebrew (text ++ " " ++ st) false then (1 : ℚ)
        else if isSubB s.toList (pyLowerL (text ++ " " ++ st)) then 0.7 else 0)).sum) :=
      List.sum_le_sum (fun s _ => stContrib_mono _ _ _ _ htokmono hsubmono s)
    have hB : ((l2.map (fun s =>
        if s ∈ _tokenize_hebrew text false then (1 : ℚ)
        else if isSubB s.toList (pyLowerL text) then 0.7 else 0)).sum) ≤
        ((l2.map (fun s =>
        if s ∈ _tokenize_hebrew (text ++ " " ++ st) false then (1 : ℚ)
        else if isSubB s.toList (pyLowerL (text ++ " " ++ st)) then 0.7 else 0)).sum) :=
      List.sum_le_sum (fun s _ => stContrib_mono _ _ _ _ htokmono hsubmono s)
    have hmid1 : (if st ∈ _tokenize_hebrew text false then (1 : ℚ)
        else if isSubB st.toList (pyLowerL text) then 0.7 else 0) ≤ 0.7 := by
      rw [if_neg hnew]
      split_ifs <;> norm_num
    have hmid2 : (if st ∈ _tokenize_hebrew (text ++ " " ++ st) false then (1 : ℚ)
        else if isSubB st.toList (pyLowerL (text ++ " " ++ st)) then 0.7 else 0) = 1 :=
      if_pos hstmem2
    rw [hmid2]
    linarith
  have hexpSum : expSumF expanded_subjects text ≤
      expSumF expanded_subjects (text ++ " " ++ st) := by
    unfold expSumF
    exact List.sum_le_sum (fun e _ => expContrib_mono _ _ hsubmono e)
  have h1 := calc_subject_match_eq subject_tokens expanded_subjects (text ++ " " ++ st)
    hne2 hsne hTne
  by_cases htext : text = ""
  · have hscore1 : _calculate_subject_match subject_tokens expanded_subjects text = 0 := by
      rw [htext]
      unfold _calculate_subject_match
      rw [if_pos rfl]
    rw [hscore1, h1]
    apply pyMin_one_pos _ _ _ hTpos
    have h3 := stSumF_nonneg subject_tokens text
    have h4 := expSumF_nonneg expanded_subjects (text ++ " " ++ st)
    linarith
  · have h0 := calc_subject_match_eq subject_tokens expanded_subjects text htext hsne hTne
    rw [h0] at hcap
    rw [h0, h1]
    exact pyMin_one_lt_pyMin_one _ _ _ hTpos (by linarith) hcap

/-- Closed witness for the amended C6 theorem at a concrete clean token. -/
theorem c6_subject_score_strict_mono_witness :
    _calculate_subject_match ["hospitals"] [] "road maintenance" <
      _calculate_subject_match ["hospitals"] [] ("road maintenance" ++ " " ++ "hospitals") :=
  c6_subject_score_strict_mono ["hospitals"] [] "road maintenance" "hospitals"
    (by decide) (by decide) (by decide) (by decide) (by decide) (by decide) (by decide)

/-! ## C9: aggregate sums -/

/-- The numeric values of one column across the fetched records: non-null
cells that parse as floats after comma removal, in record order. -/
def columnValues (records : List (List (String × PyVal))) (fid : String) : List ℚ :=
  records.filterMap (fun r =>
    let val := pyGet r fid
    if val = PyVal.none then Option.none else pyFloatCell val)

theorem columnValues_nil (fid : String) : columnValues [] fid = [] := rfl

theorem columnValues_cons_none (r : List (String × PyVal))
    (rest : List (List (String × PyVal))) (fid : String)
    (h : pyGet r fid = PyVal.none) :
    columnValues (r :: rest) fid = columnValues rest fid := by
  unfold columnValues
  rw [List.filterMap_cons]
  dsimp only
  rw [if_pos h]

theorem columnValues_cons_fail (r : List (String × PyVal))
    (rest : List (List (String × PyVal))) (fid : String)
    (h : ¬pyGet r fid = PyVal.none) (h2 : pyFloatCell (pyGet r fid) = Option.none) :
    columnValues (r :: rest) fid = columnValues rest fid := by
  unfold columnValues
  rw [List.filterMap_cons]
  dsimp only
  rw [if_neg h, h2]

theorem columnValues_cons_some (r : List (String × PyVal))
    (rest : List (List (String × PyVal))) (fid : String) (x : ℚ)
    (h : ¬pyGet r fid = PyVal.none) (h2 : pyFloatCell (pyGet r fid) = some x) :
    columnValues (r :: rest) fid = x :: columnValues rest fid := by
  unfold columnValues
  rw [List.filterMap_cons]
  dsimp only
  rw [if_neg h, h2]

theorem aggLoop_go (fid : String) : ∀ (l : List (List (String × PyVal))) (a : ℚ) (n : ℕ),
    l.foldl (fun tc r =>
      let val := pyGet r fid
      if val = PyVal.none then tc
      else
        match pyFloatCell val with
        | some x => (tc.1 + x, tc.2 + 1)
        | Option.none => tc) (a, n) =
    (a + (columnValues l fid).sum, n + (columnValues l fid).length) := by
  intro l
  induction l with
  | nil =>
    intro a n
    rw [columnValues_nil]
    simp
  | cons r rest ih =>
    intro a n
    rw [List.foldl_cons]
    dsimp only
    by_cases hn : pyGet r fid = PyVal.none
    · rw [if_pos hn, ih, columnValues_cons_none r rest fid hn]
    · rw [if_neg hn]
      cases hx : pyFloatCell (pyGet r fid) with
      | none =>
        rw [ih, columnValues_cons_fail r rest fid hn hx]
      | some x =>
        rw [ih, columnValues_cons_some r rest fid x hn hx]
        simp only [List.sum_cons, List.length_cons]
        refine Prod.ext ?_ ?_ <;> dsimp only <;> ring

theorem aggLoop_spec (records : List (List (String × PyVal))) (fid : String) :
    aggLoop records fid =
      ((columnValues records fid).sum, (columnValues records fid).length) := by
  unfold aggLoop
  rw [aggLoop_go]
  simp

theorem lookupAgg_cons_eq (e : String × AggEntry) (rest : List (String × AggEntry))
    (fid : String) (h : e.1 = fid) : lookupAgg (e :: rest) fid = some e.2 := by
  unfold lookupAgg
  rw [List.find?_cons_of_pos _ (by simp [h])]
  rfl

theorem lookupAgg_cons_ne (e : String × AggEntry) (rest : List (String × AggEntry))
    (fid : String) (h : ¬e.1 = fid) : lookupAgg (e :: rest) fid = lookupAgg rest fid := by
  unfold lookupAgg
  rw [List.find?_cons_of_neg _ (by simp [h])]

theorem lookup_upsert_same (m : List (String × AggEntry)) (k : String) (v : AggEntry) :
    lookupAgg (upsertAgg m k v) k = some v := by
  induction m with
  | nil =>
    rw [show upsertAgg [] k v = [(k, v)] from rfl]
    rw [lookupAgg_cons_eq _ _ _ rfl]
  | cons e rest ih =>
    unfold upsertAgg
    split_ifs with h
    · rw [lookupAgg_cons_eq _ _ _ rfl]
    · rw [lookupAgg_cons_ne _ _ _ h, ih]

theorem lookup_upsert_other (m : List (String × AggEntry)) (k fid : String) (v : AggEntry)
    (hk : k ≠ fid) : lookupAgg (upsertAgg m k v) fid = lookupAgg m fid := by
  induction m with
  | nil =>
    rw [show upsertAgg [] k v = [(k, v)] from rfl]
    rw [lookupAgg_cons_ne _ _ _ hk]
  | cons e rest ih =>
    unfold upsertAgg
    split_ifs with h
    · rw [lookupAgg_cons_ne _ _ _ hk, lookupAgg_cons_ne e rest fid (by rw [h]; exact hk)]
    · by_cases he : e.1 = fid
      · rw [lookupAgg_cons_eq _ _ _ he, lookupAgg_cons_eq e rest fid he]
      · rw [lookupAgg_cons_ne _ _ _ he, lookupAgg_cons_ne e rest fid he, ih]

theorem lookupAgg_foldl (records : List (List (String × PyVal))) :
    ∀ (L : List String) (m : List (String × AggEntry)) (fid : String),
    lookupAgg (L.foldl (fun sums fid =>
      let tc := aggLoop records fid
      if 0 < tc.2 then upsertAgg sums fid { sum := formatTotal tc.1, count := tc.2 }
      else sums) m) fid =
      if fid ∈ L ∧ 0 < (aggLoop records fid).2
      then some { sum := formatTotal (aggLoop records fid).1,
                  count := (aggLoop records fid).2 }
      else lookupAgg m fid := by
  intro L
  induction L with
  | nil =>
    intro m fid
    rw [List.foldl_nil, if_neg]
    rintro ⟨h1, -⟩
    exact absurd h1 (List.not_mem_nil fid)
  | cons g L ih =>
    intro m fid
    rw [List.foldl_cons, ih]
    by_cases h1 : fid ∈ L ∧ 0 < (aggLoop records fid).2
    · rw [if_pos h1, if_pos ⟨List.mem_cons_of_mem g h1.1, h1.2⟩]
    · rw [if_neg h1]
      dsimp only
      by_cases hg : g = fid
      · subst hg
        by_cases hc : 0 < (aggLoop records g).2
        · rw [if_pos hc, lookup_upsert_same, if_pos ⟨List.mem_cons_self g L, hc⟩]
        · rw [if_neg hc, if_neg]
          rintro ⟨-, h2⟩
          exact hc h2
      · by_cases hc : 0 < (aggLoop records g).2
        · rw [if_pos hc, lookup_upsert_other _ _ _ _ hg, if_neg]
          rintro ⟨h2, h3⟩
          rcases List.mem_cons.mp h2 with h4 | h4
          · exact hg h4.symm
          · exact h1 ⟨h4, h3⟩
        · rw [if_neg hc, if_neg]
          rintro ⟨h2, h3⟩
          rcases List.mem_cons.mp h2 with h4 | h4
          · exact hg h4.symm
          · exact h1 ⟨h4, h3⟩

/-- C9 counterexample: a single cell 1.234 in a declared float column.  The
arithmetic sum of the column is 1.234, but the reported sum is the
two-decimal rounding 1.23, so the two differ. -/
theorem c9_counterexample :
    (columnValues [[("x", PyVal.str "1.234")]] "x").sum = 1234/1000 ∧
    lookupAgg (_calculate_aggregates [[("x", PyVal.str "1.234")]]
      [{ id := "x", type := "float" }]) "x" =
      some { sum := 123/100, count := 1 } ∧
    (123/100 : ℚ) ≠ 1234/1000 := by
  refine ⟨by decide, by decide, by decide⟩

/-- C9 amended: for every record list and every column selected as numeric,
the reported aggregate is present exactly when some cell of the column is a
non-null numeric value; its count is the number of such cells and its sum
is the arithmetic sum of their values passed through formatTotal, i.e. the
exact sum when integral and otherwise the sum rounded to two decimal
places (Python banker's rounding).  Null and non-numeric cells are
excluded from both the sum and the count. -/
theorem c9_aggregate_sum_rounded (records : List (List (String × PyVal)))
    (fields : List AggField) (fid : String)
    (hrec : records ≠ [])
    (hfid : fid ∈ numericFields records fields) :
    lookupAgg (_calculate_aggregates records fields) fid =
      if 0 < (columnValues records fid).length
      then some { sum := formatTotal (columnValues records fid).sum,
                  count := (columnValues records fid).length }
      else Option.none := by
  unfold _calculate_aggregates
  rw [if_neg (fun h => hrec (List.isEmpty_iff.mp h))]
  rw [lookupAgg_foldl, aggLoop_spec]
  dsimp only
  by_cases hlen : 0 < (columnValues records fid).length
  · rw [if_pos ⟨hfid, hlen⟩, if_pos hlen]
  · rw [if_neg (fun h2 => hlen h2.2), if_neg hlen]
    rfl

def c9recs : List (List (String × PyVal)) :=
  [[("n", PyVal.str "10")], [("n", PyVal.none)], [("n", PyVal.str "abc")],
   [("n", PyVal.num 5)], [("n", PyVal.str "1,250")]]

def c9fields : List AggField := [{ id := "n", type := "int4" }]

/-- Closed witness for the amended C9 theorem on a mixed record list: the
null and the unparsable cell are skipped, the comma string parses, and the
reported entry is the exact integral sum 1265 with count 3. -/
theorem c9_aggregate_sum_rounded_witness :
    c9recs ≠ [] ∧ "n" ∈ numericFields c9recs c9fields ∧
    lookupAgg (_calculate_aggregates c9recs c9fields) "n" =
      (if 0 < (columnValues c9recs "n").length
       then some { sum := formatTotal (columnValues c9recs "n").sum,
                   count := (columnValues c9recs "n").length }
       else Option.none) ∧
    lookupAgg (_calculate_aggregates c9recs c9fields) "n" =
      some { sum := 1265, count := 3 } :=
  ⟨by decide, by decide,
   c9_aggregate_sum_rounded c9recs c9fields "n" (by decide) (by decide), by decide⟩
